import Mathlib

/-!
Verification of calculator-service: severity model, calculator core and
structured logger.

A shallow embedding of `internals/logger/logger.go`, `internals/logger/stacktrace.go`
and `services/calculatorservice/calculator.go`, followed by theorems about them.

Conventions of the embedding:

* `level` is a Go `byte`: a natural number below 256, with wrap-around written
  out as `% 256` and bitwise complement as `^^^ 255`.
* Everything the Go runtime or a library decides (Unicode case mapping, `fmt`
  verbs, call-stack capture, the result of a go-kit `Log` call, IEEE-754
  arithmetic) is a field of an explicit parameter record, so every theorem holds
  for all behaviours of those collaborators.
* Effects are explicit: a `World` records what was handed to the go-kit sink,
  which counters were incremented and what was printed with `println`; a Go
  panic is `Except.error`.
-/

namespace CalculatorService

/-! ## Severity model (`logger.go`, lines 25-97) -/

/-- The data format the loglevels are saved as: Go `byte`. -/
abbrev level := Nat

def levelDebug : level := 1 <<< 0
def levelInfo : level := 1 <<< 1
def levelNotice : level := 1 <<< 2
def levelWarn : level := 1 <<< 3
def levelError : level := 1 <<< 4
def levelCritical : level := 1 <<< 5

/-- The six severities in the order of their declaration (ascending severity). -/
def allLevels : List level :=
  [levelDebug, levelInfo, levelNotice, levelWarn, levelError, levelCritical]

/-- Go `^(loglevel - 1)` on a byte: subtraction wraps modulo 256 and `^` flips
all eight bits. -/
def allLevelsFrom (loglevel : level) : level :=
  ((loglevel + 255) % 256) ^^^ 255

/-- Excludes only debug. -/
def levelDefault : level := ((levelInfo + 255) % 256) ^^^ 255

/-- Go `string`. -/
abbrev GoString : Type := String

/-- Go `strings.Join`. -/
def stringsJoin (elems : List String) (sep : String) : String :=
  match elems with
  | [] => ""
  | e :: rest => rest.foldl (fun acc x => acc ++ sep ++ x) e

/-- The method `level.String`: the enum as a string. -/
def level.String (l : level) : GoString :=
  let retParams : List GoString := []
  let retParams := if l &&& levelDebug != 0 then retParams ++ ["debug"] else retParams
  let retParams := if l &&& levelInfo != 0 then retParams ++ ["info"] else retParams
  let retParams := if l &&& levelNotice != 0 then retParams ++ ["notice"] else retParams
  let retParams := if l &&& levelWarn != 0 then retParams ++ ["warn"] else retParams
  let retParams := if l &&& levelError != 0 then retParams ++ ["error"] else retParams
  let retParams := if l &&& levelCritical != 0 then retParams ++ ["critical"] else retParams
  stringsJoin retParams " | "

/-- The method `level.ToGokitFormat`: a heuristic go-kit level name. -/
def level.ToGokitFormat (l : level) : GoString :=
  if l &&& levelDebug != 0 then "debug"
  else if l &&& levelInfo != 0 then "info"
  else if l &&& levelNotice != 0 then "info"
  else if l &&& levelWarn != 0 then "warn"
  else "error"

/-! ## Go error values -/

/-- The error values this package builds or receives. A stack is the list of
program counters captured when the value was made.

* `errorString`: standard-library `errors.New` / `fmt.Errorf` (message only);
* `fundamental`: `github.com/pkg/errors` `New` / `Errorf` (message and stack);
* `withMessage`, `withStack`: the two layers `pkg/errors.Wrap` builds;
* `errWithStacktrace`: this package's own wrapper (`stacktrace.go`). -/
inductive GoError where
  | errorString (msg : String)
  | fundamental (msg : String) (stack : List Nat)
  | withMessage (cause : GoError) (msg : String)
  | withStack (cause : GoError) (stack : List Nat)
  | errWithStacktrace (cause : GoError) (stack : List Nat)
  deriving DecidableEq, Repr

/-- The method `Error()` of each error type. -/
def GoError.Error : GoError → String
  | .errorString msg => msg
  | .fundamental msg _ => msg
  | .withMessage cause msg => msg ++ ": " ++ cause.Error
  | .withStack cause _ => cause.Error
  | .errWithStacktrace cause _ => cause.Error

/-- Whether the value implements `stackTracer`, and the stack it returns. -/
def GoError.StackTrace : GoError → Option (List Nat)
  | .fundamental _ stack => some stack
  | .withStack _ stack => some stack
  | .errWithStacktrace _ stack => some stack
  | _ => none

/-- Whether the value implements `causer`, and the cause it returns. -/
def GoError.Cause : GoError → Option GoError
  | .withMessage cause _ => some cause
  | .withStack cause _ => some cause
  | .errWithStacktrace cause _ => some cause
  | _ => none

/-! ## What the Go runtime and the libraries decide -/

/-- A captured call site (`sourceLocation` in `logger.go`). -/
structure sourceLocation where
  File : String
  Line : String
  Function : String
  deriving DecidableEq, Repr

/-- A dynamically typed Go value (`interface{}`) as the logger sees it. -/
inductive Value where
  | nil
  | str (s : String)
  | error (e : GoError)
  | sourceLocation (loc : sourceLocation)
  | stacktrace (st : Option GoError)
  | levelValue (name : String)
  | other (tag : Nat)
  deriving DecidableEq, Repr

/-- The collaborators the logger calls into.

* `unicodeToLower`: `unicode.ToLower` on a rune outside ASCII;
* `sprintOther`: `fmt.Sprint` of a value that is neither a string nor an error;
* `sprintf`: `fmt.Sprintf(format, args...)`;
* `callers`: `runtime.Callers(skip, ...)` as used by `callers` in `stacktrace.go`;
* `errorsCallers`: the stack `github.com/pkg/errors` captures for a new error;
* `caller`: `runtime.Caller(n)` with `runtime.FuncForPC`, the path already made
  relative; `none` when `ok` is false or the function is unknown;
* `sinkLog`: the error a go-kit base logger (by sink id) returns for a record. -/
structure Runtime where
  unicodeToLower : Char → Char
  sprintOther : Value → String
  sprintf : String → List Value → String
  callers : Nat → List Nat
  errorsCallers : List Nat
  caller : Nat → Option sourceLocation
  sinkLog : Nat → List Value → Option String

/-- Go `unicode.ToLower`: the ASCII range is handled inline. -/
def runeToLower (rt : Runtime) (c : Char) : Char :=
  if c.toNat < 128 then
    if 'A'.toNat ≤ c.toNat ∧ c.toNat ≤ 'Z'.toNat then Char.ofNat (c.toNat + 32) else c
  else rt.unicodeToLower c

/-- Go `strings.ToLower`: every rune is mapped with `unicode.ToLower`. -/
def stringsToLower (rt : Runtime) (s : String) : String :=
  String.mk (s.data.map (runeToLower rt))

/-- Go `errors.Errorf` of `github.com/pkg/errors`. -/
def errorsErrorf (rt : Runtime) (format : String) (args : List Value) : GoError :=
  .fundamental (rt.sprintf format args) rt.errorsCallers

/-- Go `errors.New` of `github.com/pkg/errors`. -/
def errorsNew (rt : Runtime) (msg : String) : GoError :=
  .fundamental msg rt.errorsCallers

/-- Go `errors.Wrap` of `github.com/pkg/errors` on a non-nil error. -/
def errorsWrap (rt : Runtime) (err : GoError) (message : String) : GoError :=
  .withStack (.withMessage err message) rt.errorsCallers

/-- The function `loglevelFromString`: the loglevel from environment variables or
cli params. -/
def loglevelFromString (rt : Runtime) (loglevel : String) : level × Option GoError :=
  let s := stringsToLower rt loglevel
  if s = "debug" then (levelDebug, none)
  else if s = "info" then (levelInfo, none)
  else if s = "notice" then (levelNotice, none)
  else if s = "warn" ∨ s = "warning" then (levelWarn, none)
  else if s = "error" ∨ s = "err" then (levelError, none)
  else if s = "fatal" ∨ s = "critical" then (levelCritical, none)
  else if s = "" then (levelDebug, none)
  else (levelDebug, some (errorsErrorf rt "loglevel is set to unknown value `%s`" [.str loglevel]))

/-- The function `allLoglevelsFromString`: all the according loglevels from the
basic level. -/
def allLoglevelsFromString (rt : Runtime) (loglevel : String) : level × Option GoError :=
  let r := loglevelFromString rt loglevel
  (allLevelsFrom r.1, r.2)

/-- Go `strings.Contains`. -/
def stringsContains (s substr : String) : Bool :=
  s.data.tails.any (fun t => substr.data.isPrefixOf t)

/-! ## Structured logger (`logger.go`, `stacktrace.go`) -/

/-- A go-kit `log.Logger` as this package builds them: a base logger (the sink
that finally receives each record, named by a number) under a go-kit context
that holds the key/values bound with `log.With` / `log.WithPrefix`. -/
structure GKLogger where
  sink : Nat
  keyvals : List Value
  deriving DecidableEq, Repr

/-- The value go-kit appends to a key/value list of odd length (`ErrMissingValue`). -/
def ErrMissingValue : Value := .error (.errorString "(MISSING)")

/-- The go-kit rule for a key/value list: an odd list gets `ErrMissingValue`. -/
def padKeyvals (keyvals : List Value) : List Value :=
  if keyvals.length % 2 = 0 then keyvals else keyvals ++ [ErrMissingValue]

/-- The go-kit function `log.With`: the key/values are added after the bound ones. -/
def logWith (gklogger : GKLogger) (keyvals : List Value) : GKLogger :=
  if keyvals.isEmpty then gklogger
  else { gklogger with keyvals := padKeyvals (gklogger.keyvals ++ keyvals) }

/-- The go-kit function `log.WithPrefix`: the key/values go before the bound ones. -/
def logWithPrefix (gklogger : GKLogger) (keyvals : List Value) : GKLogger :=
  if keyvals.isEmpty then gklogger
  else { gklogger with keyvals := padKeyvals keyvals ++ gklogger.keyvals }

/-- The record a go-kit context hands to its base logger on `Log(keyvals...)`. -/
def gkRecord (gklogger : GKLogger) (keyvals : List Value) : List Value :=
  padKeyvals (gklogger.keyvals ++ keyvals)

/-- Everything the logger can change outside itself.

* `written`: the records handed to go-kit base loggers (sink, key/values),
  oldest first;
* `increments`: the counters whose `Inc()` was called, oldest first;
* `printed`: the lines written with the builtin `println`;
* `exit`: the status given to `os.Exit`, once called. -/
structure World where
  written : List (Nat × List Value)
  increments : List Nat
  printed : List String
  exit : Option Nat
  deriving DecidableEq, Repr

/-- The struct `logger`: a wrapper around the go-kit logger. An `incrementable`
is named by a number; `none` is the nil interface. The field `logPrefix` is the
Go field `prefix`. -/
structure logger where
  gklogger : GKLogger
  loglevel : level
  errorCounter : Option Nat
  logPrefix : String
  useLegacyLevels : Bool
  useCustomLogger : Bool
  deriving DecidableEq, Repr

/-- The function `createLogger`. -/
def createLogger (gklogger : GKLogger) : logger :=
  { gklogger := gklogger, loglevel := levelDefault, errorCounter := none,
    logPrefix := "", useLegacyLevels := false, useCustomLogger := false }

/-- The function `Legacy` for a go-kit logger that is not already a `Logger`:
all levels pass through. -/
def Legacy (gklogger : GKLogger) : logger :=
  { gklogger := gklogger, loglevel := allLevelsFrom levelDebug, errorCounter := none,
    logPrefix := "", useLegacyLevels := true, useCustomLogger := false }

/-- The method `isAllowed`: whether messages on this level pass the filter. -/
def logger.isAllowed (l : logger) (lvl : level) : Bool :=
  (l.loglevel &&& lvl) != 0

/-- The method `incMetric`. -/
def logger.incMetric (l : logger) (w : World) : World :=
  match l.errorCounter with
  | some metric => { w with increments := w.increments ++ [metric] }
  | none => w

/-- The method `With`: a logger with the key-value pair added to it. -/
def logger.With (l : logger) (key : String) (value : Value) : logger :=
  { l with gklogger := logWith l.gklogger [.str key, value] }

/-- The method `WithPrefix`. -/
def logger.WithPrefix (l : logger) (pfx : String) : logger :=
  { l with logPrefix := pfx }

/-- The method `WithErrorCounter`. -/
def logger.WithErrorCounter (l : logger) (metric : Option Nat) : logger :=
  { l with errorCounter := metric }

/-- Go `fmt.Sprint` of one value. -/
def fmtSprint (rt : Runtime) : Value → String
  | .str s => s
  | .error e => e.Error
  | v => rt.sprintOther v

/-- The function `ErrWithStacktrace` (`stacktrace.go`). -/
def ErrWithStacktrace (rt : Runtime) (err : GoError) (depth : Nat) : GoError :=
  .errWithStacktrace err (rt.callers (depth + 5))

/-- The loop of `getUnderlyingStacktrace`: `stErr` is the last `stackTracer`
seen so far while following `Cause()`. -/
def getUnderlyingStacktraceFrom (stErr : Option GoError) : GoError → Option GoError
  | .errorString _ => stErr
  | .fundamental msg stack => some (.fundamental msg stack)
  | .withMessage cause _ => getUnderlyingStacktraceFrom stErr cause
  | .withStack cause stack => getUnderlyingStacktraceFrom (some (.withStack cause stack)) cause
  | .errWithStacktrace cause stack =>
      getUnderlyingStacktraceFrom (some (.errWithStacktrace cause stack)) cause

/-- The function `getUnderlyingStacktrace` (`stacktrace.go`). -/
def getUnderlyingStacktrace (err : GoError) : Option GoError :=
  getUnderlyingStacktraceFrom none err

/-- The first loop of `logWithFallback` over the keys (even positions): a
`message` value is rendered and, under a non-empty prefix, replaced by the
prefixed text; a `source_location` key is noted. Reading the value of a
`message` key that is the last element panics. -/
def scanParams (rt : Runtime) (pfx : String) : List Value → Except String (List Value × Bool)
  | [] => .ok ([], false)
  | [k] =>
      if k = .str "message" then .error "index out of range"
      else .ok ([k], decide (k = .str "source_location"))
  | k :: v :: rest =>
      match scanParams rt pfx rest with
      | .error e => .error e
      | .ok (rest, hasSourceLocation) =>
          if k = .str "message" then
            let msg := fmtSprint rt v
            if pfx ≠ "" then .ok (k :: .str ("[" ++ pfx ++ "] " ++ msg) :: rest, hasSourceLocation)
            else .ok (k :: v :: rest, hasSourceLocation)
          else if k = .str "source_location" then .ok (k :: v :: rest, true)
          else .ok (k :: v :: rest, hasSourceLocation)

/-- The go-kit level name `logWithFallback` picks under `useLegacyLevels`
(`gklevel.Debug`, `Info`, `Warn`, `Error`); `none` when no case matches and `fn`
stays nil. -/
def legacyLevelName (lvl : level) : Option String :=
  if lvl = levelDebug then some "debug"
  else if lvl = levelInfo then some "info"
  else if lvl = levelNotice then some "info"
  else if lvl = levelWarn then some "warn"
  else if lvl = levelError then some "error"
  else if lvl = levelCritical then some "error"
  else none

/-- The text of the key/value pairs in the `println` fallback; reading the value
of a last key that has none panics. -/
def fallbackParams (rt : Runtime) : List Value → Except String String
  | [] => .ok ""
  | [_] => .error "index out of range"
  | k :: v :: rest =>
      match fallbackParams rt rest with
      | .error e => .error e
      | .ok s => .ok (fmtSprint rt k ++ ": " ++ fmtSprint rt v ++ "\n" ++ s)

/-- The choice of `lg` in `logWithFallback` (lines 287-310): under
`useLegacyLevels` the go-kit level function for the level, applied to the go-kit
logger (a panic when no case matched and `fn` is nil), otherwise the go-kit
logger with the pair `severity`, `lvl.String()` bound. -/
def logger.levelLogger (l : logger) (lvl : level) : Except String GKLogger :=
  if l.useLegacyLevels then
    match legacyLevelName lvl with
    | some name => .ok (logWithPrefix l.gklogger [.str "level", .levelValue name])
    | none => .error "invalid memory address or nil pointer dereference"
  else .ok (logWith l.gklogger [.str "severity", .str lvl.String])

/-- The source location step of `logWithFallback` (lines 312-330): the caller
`depth + 2` frames up is appended unless it is unknown or the record already has
a `source_location` key. -/
def appendSourceLocation (rt : Runtime) (depth : Nat) (hasSourceLocation : Bool)
    (params : List Value) : List Value :=
  match rt.caller (depth + 2) with
  | some loc =>
      if hasSourceLocation then params
      else params ++ [.str "source_location", .sourceLocation loc]
  | none => params

/-- The last step of `logWithFallback` (lines 332-340): `lg.Log(params...)`, and
on an error the fallback on `println`. -/
def logOrPrintln (rt : Runtime) (lg : GKLogger) (lvl : level) (params : List Value)
    (w : World) : Except String World :=
  let record := gkRecord lg params
  let w := { w with written := w.written ++ [(lg.sink, record)] }
  match rt.sinkLog lg.sink record with
  | none => .ok w
  | some err =>
      match fallbackParams rt params with
      | .error e => .error e
      | .ok paramStr =>
          .ok { w with printed := w.printed ++
            ["Error when trying to log message: " ++ err,
             "Falling back to println",
             "<<<BEGIN LOG\n" ++ ("\tseverity: " ++ lvl.String ++ "\n" ++ paramStr) ++
               "\nEND LOG>>>"] }

/-- The method `logWithFallback`: logs the call or falls back on `println`.
`Except.error` is a panic. -/
def logger.logWithFallback (rt : Runtime) (l : logger) (lvl : level) (depth : Nat)
    (params : List Value) (w : World) : Except String World :=
  if !l.isAllowed lvl then .ok w
  else
    match scanParams rt l.logPrefix params with
    | .error e => .error e
    | .ok (params, hasSourceLocation) =>
      match l.levelLogger lvl with
      | .error e => .error e
      | .ok lg =>
        let params := appendSourceLocation rt depth hasSourceLocation params
        logOrPrintln rt lg lvl params w

/-- The method `logError`: logs an error with a stacktrace. -/
def logger.logError (rt : Runtime) (l : logger) (err : GoError) (lvl : level) (depth : Nat)
    (w : World) : Except String World :=
  let st := getUnderlyingStacktrace err
  l.logWithFallback rt lvl (depth + 1)
    [.str "message", .str err.Error, .str "stacktrace", .stacktrace st] w

/-- The method `logFancy`: parses the multiple params to recognize how the log
parameters should look like. -/
def logger.logFancy (rt : Runtime) (l : logger) (depth : Nat) (lvl : level) (p : List Value)
    (w : World) : Except String World :=
  let depth := depth + 1
  let w := if lvl = levelCritical ∨ lvl = levelError then l.incMetric w else w
  match p with
  | [] =>
      if lvl = levelCritical ∨ lvl = levelError then
        l.logError rt (errorsNew rt "No Error message has been provided") lvl depth w
      else
        l.logWithFallback rt lvl depth
          [.str "message", .str "No message has been provided"] w
  | .nil :: _ => l.logError rt (errorsNew rt "error is nil") levelCritical depth w
  | .error err :: params =>
      let err := if err.StackTrace.isSome then err else ErrWithStacktrace rt err depth
      match params with
      | [] => l.logError rt err lvl depth w
      | .str str :: rest =>
          let text := rt.sprintf str rest
          l.logError rt (errorsWrap rt err text) lvl depth w
      | _ :: _ =>
          l.logError rt (errorsNew rt "second parameter to logger needs to be a string")
            levelCritical depth w
  | .str text :: params =>
      let reversed : Option GoError :=
        match params with
        | [.error err] => if !stringsContains text "%" then some err else none
        | _ => none
      match reversed with
      | some err =>
          match l.logError rt
              (errorsNew rt
                "parameter order in the logger should be (error, string), not (string, error)")
              levelCritical depth w with
          | .error e => .error e
          | .ok w => l.logError rt (errorsWrap rt err text) lvl depth w
      | none =>
          if lvl = levelError ∨ lvl = levelCritical then
            l.logError rt (ErrWithStacktrace rt (errorsErrorf rt text params) depth) lvl depth w
          else
            l.logWithFallback rt lvl depth [.str "message", .str (rt.sprintf text params)] w
  | _ :: _ =>
      l.logError rt
        (errorsNew rt "first parameter to logger needs to be a string or an error")
        levelCritical depth w

/-- The method `Error`: logs an error with its stacktrace. -/
def logger.Error (rt : Runtime) (l : logger) (params : List Value) (w : World) :
    Except String World :=
  l.logFancy rt 0 levelError params w

/-- The method `Warn`. -/
def logger.Warn (rt : Runtime) (l : logger) (params : List Value) (w : World) :
    Except String World :=
  l.logFancy rt 0 levelWarn params w

/-- The method `Info`. -/
def logger.Info (rt : Runtime) (l : logger) (params : List Value) (w : World) :
    Except String World :=
  l.logFancy rt 0 levelInfo params w

/-- The method `Notice`. -/
def logger.Notice (rt : Runtime) (l : logger) (params : List Value) (w : World) :
    Except String World :=
  l.logFancy rt 0 levelNotice params w

/-- The method `Debug`. -/
def logger.Debug (rt : Runtime) (l : logger) (params : List Value) (w : World) :
    Except String World :=
  l.logFancy rt 0 levelDebug params w

/-- The method `Fatal`: logs an error with its stacktrace, then terminates the
program. -/
def logger.Fatal (rt : Runtime) (l : logger) (params : List Value) (w : World) :
    Except String World :=
  match l.logFancy rt 0 levelCritical params w with
  | .error e => .error e
  | .ok w => .ok { w with exit := some 1 }

/-- The method `SetLogLevel` on the logger behind the pointer: the new value of
the logger and the world after the call. -/
def logger.SetLogLevel (rt : Runtime) (l : logger) (level : String) (w : World) :
    Except String (logger × World) :=
  let r := allLoglevelsFromString rt level
  let logged : Except String World :=
    match r.2 with
    | some err => l.Error rt [.error err] w
    | none => .ok w
  match logged with
  | .error e => .error e
  | .ok w => .ok ({ l with loglevel := r.1 }, w)

/-- The world before anything was logged. -/
def World.empty : World :=
  { written := [], increments := [], printed := [], exit := none }

/-! ## Calculator (`services/calculatorservice/calculator.go`) -/

/-- Go `float64` as the calculator uses it: the constant `0`, the four
arithmetic operators, the comparison `x == 0.0` and the `%F` verb of `fmt`. The
theorems hold for every such carrier, IEEE-754 binary64 included. -/
structure Float64 (F : Type) where
  zero : F
  add : F → F → F
  sub : F → F → F
  mul : F → F → F
  div : F → F → F
  eqZero : F → Bool
  fmtF : F → String

/-- The message `calculatorpb.OPERANDS`. -/
structure OPERANDS (F : Type) where
  Number_1 : F
  Number_2 : F

/-- The enum `calculatorpb.OPERATOR` is an `int32`; the generated package
`rpc/proto/calculatorpb` is not among the sources, so the values of its four
constants are parameters. They are pairwise distinct: the Go compiler rejects a
switch with a repeated case constant. -/
structure OPERATOR where
  OPERATOR_ADD : Int
  OPERATOR_MULTIPLY : Int
  OPERATOR_SUBTRACT : Int
  OPERATOR_DIVIDE : Int
  distinct : [OPERATOR_ADD, OPERATOR_MULTIPLY, OPERATOR_SUBTRACT, OPERATOR_DIVIDE].Nodup

def add {F : Type} (fl : Float64 F) (number1 number2 : F) : F × Option GoError :=
  (fl.add number1 number2, none)

def multiply {F : Type} (fl : Float64 F) (number1 number2 : F) : F × Option GoError :=
  (fl.mul number1 number2, none)

def divide {F : Type} (fl : Float64 F) (number1 number2 : F) : F × Option GoError :=
  if fl.eqZero number2 then
    (fl.zero, some (.errorString
      ("you can not divide " ++ fl.fmtF number1 ++ " by " ++ fl.fmtF number2)))
  else (fl.div number1 number2, none)

def subtract {F : Type} (fl : Float64 F) (number1 number2 : F) : F × Option GoError :=
  (fl.sub number1 number2, none)

/-- Reading a field through the pointer `operands`: a nil pointer panics. -/
def deref {F : Type} (operands : Option (OPERANDS F)) : Except String (OPERANDS F) :=
  match operands with
  | some o => .ok o
  | none => .error "invalid memory address or nil pointer dereference"

/-- The method `Calculator.Calculator`. The receiver and the context are not
used. `Except.error` is a panic. -/
def Calculator {F : Type} (fl : Float64 F) (pb : OPERATOR) (operator : Int)
    (operands : Option (OPERANDS F)) : Except String (F × Option GoError) :=
  if operator = pb.OPERATOR_ADD then
    (deref operands).map (fun o => add fl o.Number_1 o.Number_2)
  else if operator = pb.OPERATOR_MULTIPLY then
    (deref operands).map (fun o => multiply fl o.Number_1 o.Number_2)
  else if operator = pb.OPERATOR_SUBTRACT then
    (deref operands).map (fun o => subtract fl o.Number_1 o.Number_2)
  else if operator = pb.OPERATOR_DIVIDE then
    (deref operands).map (fun o => divide fl o.Number_1 o.Number_2)
  else .ok (fl.zero, some (.errorString "error: some arguments are not supplied"))

/-- The gRPC status codes the interface description names. -/
inductive Code where
  | OK
  | Unknown
  | InvalidArgument
  deriving DecidableEq, Repr

/-- The class of an error on the wire, grpc-go `status.Code`: `OK` for a nil
error, the carried code for an error with a `GRPCStatus` method, `Unknown` for
every other error. No error type of this repository has that method. -/
def statusCode : Option GoError → Code
  | none => .OK
  | some _ => .Unknown

/-! ### Concrete collaborators, used to run the definitions -/

/-- Six-digit fixed-point rendering of a rational, the `%F` verb on values that
have at most six decimals. -/
def ratFmtF (q : ℚ) : String :=
  let scaled : Int := q.num * 1000000 / (q.den : Int)
  let n : Nat := scaled.natAbs
  let frac := toString (n % 1000000)
  (if scaled < 0 then "-" else "") ++ toString (n / 1000000) ++ "." ++
    String.mk (List.replicate (6 - frac.length) '0') ++ frac

/-- Exact rational arithmetic as a `Float64` carrier. -/
def ratFloat64 : Float64 ℚ where
  zero := 0
  add := fun a b => a + b
  sub := fun a b => a - b
  mul := fun a b => a * b
  div := fun a b => a / b
  eqZero := fun a => decide (a = 0)
  fmtF := ratFmtF

/-- One numbering of the enum constants. -/
def samplePb : OPERATOR where
  OPERATOR_ADD := 1
  OPERATOR_MULTIPLY := 3
  OPERATOR_SUBTRACT := 2
  OPERATOR_DIVIDE := 4
  distinct := by decide

/-- Collaborators with ASCII-only case mapping and placeholder renderings. -/
def sampleRt : Runtime where
  unicodeToLower := fun c => c
  sprintOther := fun _ => "?"
  sprintf := fun format _ => format
  callers := fun _ => []
  errorsCallers := []
  caller := fun _ => none
  sinkLog := fun _ _ => none

/-- The level names the parser accepts, as the specification lists them, each
with the severity it stands for; the empty string stands for `Debug`. -/
def acceptedLevelNames : List (String × level) :=
  [("debug", levelDebug), ("info", levelInfo), ("notice", levelNotice),
   ("warn", levelWarn), ("warning", levelWarn), ("error", levelError), ("err", levelError),
   ("fatal", levelCritical), ("critical", levelCritical), ("", levelDebug)]

/-! ## Loggers behind pointers

A `Logger` interface value holds a `*logger`. The methods `With`, `WithPrefix`
and `WithErrorCounter` have a value receiver: a call through the pointer copies
the struct, changes the copy and returns the address of the copy. `SetLogLevel`
has a pointer receiver and writes through it. -/

/-- The loggers that exist, by address (the position in the list). -/
abbrev Heap := List logger

/-- A call `p.m(...)` of a value-receiver method `m` that ends in `return &l`:
the struct behind `p` is copied, `f` is what the body does to the copy, and the
copy gets a fresh address. A nil or dangling `p` panics. -/
def Heap.derive (h : Heap) (p : Nat) (f : logger → logger) : Except String (Heap × Nat) :=
  match h[p]? with
  | some l => .ok (h ++ [f l], h.length)
  | none => .error "invalid memory address or nil pointer dereference"

/-- The call `p.With(key, value)` on a `Logger`. -/
def Heap.With (h : Heap) (p : Nat) (key : String) (value : Value) :
    Except String (Heap × Nat) :=
  h.derive p (fun l => l.With key value)

/-- The call `p.WithPrefix(pfx)` on a `Logger`. -/
def Heap.WithPrefix (h : Heap) (p : Nat) (pfx : String) : Except String (Heap × Nat) :=
  h.derive p (fun l => l.WithPrefix pfx)

/-- The call `p.WithErrorCounter(metric)` on a `Logger`. -/
def Heap.WithErrorCounter (h : Heap) (p : Nat) (metric : Option Nat) :
    Except String (Heap × Nat) :=
  h.derive p (fun l => l.WithErrorCounter metric)

/-- The call `p.SetLogLevel(level)` on a `Logger`: the struct behind `p` is
updated in place. -/
def Heap.SetLogLevel (rt : Runtime) (h : Heap) (p : Nat) (level : String) (w : World) :
    Except String (Heap × World) :=
  match h[p]? with
  | none => .error "invalid memory address or nil pointer dereference"
  | some l =>
      match l.SetLogLevel rt level w with
      | .error e => .error e
      | .ok (l, w) => .ok (h.set p l, w)

/-- The text `logWithFallback` leaves in a `message` field (lines 269-277): the
rendered message, with the prefix in brackets in front of it when the logger has
a non-empty prefix. -/
def prefixedMessage (pfx msg : String) : String :=
  if pfx ≠ "" then "[" ++ pfx ++ "] " ++ msg else msg

/-- The cause chain of an error, outermost first: the error, what its `Cause()`
returns, the cause of that, and so on. -/
def GoError.chain : GoError → List GoError
  | .errorString msg => [.errorString msg]
  | .fundamental msg stack => [.fundamental msg stack]
  | .withMessage cause msg => .withMessage cause msg :: cause.chain
  | .withStack cause stack => .withStack cause stack :: cause.chain
  | .errWithStacktrace cause stack => .errWithStacktrace cause stack :: cause.chain

/-! ## Lifecycle coordinator (`internals/http/starter/starter.go`)

Servers, TLS configurations and go-kit loggers are named by numbers (their
addresses); `none` is a nil pointer or nil interface. What the listeners and the
clock decide is a parameter of `Start` and `Stop`. -/

/-- The struct `grpcServer`. -/
structure grpcServer where
  srv : Nat
  lis : String
  tls : Option Nat
  deriving DecidableEq, Repr

/-- The struct `Server`. The channel `err` is kept as its capacity `errCap`;
`timeout` is in nanoseconds. -/
structure Server where
  srv : List Nat
  gsrv : List grpcServer
  errCap : Nat
  started : Bool
  timeout : Nat
  Log : Option Nat
  deriving DecidableEq, Repr

/-- The logger `log.NewNopLogger()` returns. -/
def nopLogger : Nat := 0

/-- The function `New`. -/
def New : Server :=
  { srv := [], gsrv := [], errCap := 1, started := false, timeout := 2 * 1000000000,
    Log := none }

/-- The method `WithHTTP`. -/
def Server.WithHTTP (h : Server) (srv : List (Option Nat)) : Server :=
  if h.started then h
  else
    srv.foldl
      (fun h s =>
        match s with
        | none => h
        | some s => { h with srv := h.srv ++ [s] })
      h

/-- The method `WithGRPC`. -/
def Server.WithGRPC (h : Server) (srv : Option Nat) (lis : String) (tlsCfg : Option Nat) :
    Server :=
  if h.started then h
  else
    match srv with
    | none => h
    | some srv => { h with gsrv := h.gsrv ++ [{ srv := srv, lis := lis, tls := tlsCfg }] }

/-- The method `Start`. One task per listener is launched; `first` is what the
final `select` yields: the first value received from `h.err` before the timeout,
or `none` when the timeout comes first. -/
def Server.Start (h : Server) (first : Option GoError) : Server × Option GoError :=
  if h.started then (h, some (.errorString "already started"))
  else
    let h := { h with started := true }
    let h :=
      if h.errCap < h.srv.length + h.gsrv.length then
        { h with errCap := h.srv.length + h.gsrv.length }
      else h
    let h := if h.Log.isNone then { h with Log := some nopLogger } else h
    (h, first)

/-- The method `Stop`. One task per registered server is run and `g.Wait()`
waits for all of them; `shutdown s` is what `Shutdown(ctx)` of HTTP server `s`
returns and `order` lists the HTTP servers in the order in which their calls
returned; a gRPC task returns nil. The result is the first error recorded by the
group. Every task first logs through `h.Log`, which panics when that is nil. -/
def Server.Stop (h : Server) (shutdown : Nat → Option GoError) (order : List Nat) :
    Except String (Server × Option GoError) :=
  if h.Log.isNone ∧ (h.srv ≠ [] ∨ h.gsrv ≠ []) then
    .error "invalid memory address or nil pointer dereference"
  else .ok (h, (order.filterMap shutdown).head?)

/-! ## Template formatter (`internals/logger/customfmt.go`) -/

/-- The struct `customFormatLogger`, without the writer and the compiled pattern. -/
structure customFormatLogger where
  fmtstring : String
  useColors : Bool
  deriving DecidableEq, Repr

/-- The collaborators of the formatter.

* `color`: what `useColorForLevel` makes of a text for one of the six levels
  (package `github.com/fatih/color`);
* `hiRed`: `color.HiRedString`;
* `logfmtValue`: how the go-kit logfmt logger writes a value (quoting);
* `stackText`: `getTextFormat(useColors)` of a stack. -/
structure FormatRuntime where
  color : level → String → String
  hiRed : String → String
  logfmtValue : String → String
  stackText : Bool → List Nat → String

/-- The keys the loop of `Log` does not add to `params`. -/
def reservedKeys : List String :=
  ["time", "source_location", "name", "commit", "stacktrace", "severity", "caller", "message"]

/-- Reading a Go `map[string]string` kept as a list, latest entry first: the
zero value `""` for a missing key. -/
def mapGet : List (String × String) → String → String
  | [], _ => ""
  | (k, v) :: rest, key => if k = key then v else mapGet rest key

/-- Writing `m[key] = value`. -/
def mapSet (m : List (String × String)) (key value : String) : List (String × String) :=
  (key, value) :: m

/-- The variables of the loop of `Log`: `kv`, `params`, `lvl` and `st`
(`none`: nil, `some s`: the address of a copy of the `stacktrace` value `s`,
whose field `st` is `s`). -/
structure formatState where
  kv : List (String × String)
  params : List String
  lvl : level
  st : Option (Option GoError)
  deriving DecidableEq, Repr

/-- The body of the loop of `Log` for one value `v` under the key `key`. -/
def formatPair (rt : Runtime) (s : formatState) (key : String) (v : Value) : formatState :=
  let params :=
    if key ∉ reservedKeys then s.params ++ ["$" ++ stringsToLower rt key] else s.params
  let lvl := if key = "severity" then (loglevelFromString rt (fmtSprint rt v)).1 else s.lvl
  let st :=
    if key = "severity" then s.st
    else if key = "stacktrace" then
      match v with
      | .stacktrace t => some t
      | _ => s.st
    else s.st
  { kv := mapSet s.kv ("$" ++ stringsToLower rt key) (fmtSprint rt v),
    params := params, lvl := lvl, st := st }

/-- The loop of `Log` over `keyvals`: a key at an even position, its value
after it; a last key without a value changes nothing. -/
def formatScan (rt : Runtime) : List Value → formatState → formatState
  | k :: v :: rest, s => formatScan rt rest (formatPair rt s (fmtSprint rt k) v)
  | _, s => s

/-- The function `severityShort`. -/
def severityShort (sev : String) : String :=
  if sev = "debug" then "D"
  else if sev = "info" then "I"
  else if sev = "notice" then "N"
  else if sev = "warn" then "W"
  else if sev = "error" then "E"
  else if sev = "critical" then "!"
  else "?"

/-- The table `kv` after the loop and the assignment of `$severity_s`. -/
def formatTable (rt : Runtime) (keyvals : List Value) : List (String × String) :=
  let s := formatScan rt keyvals { kv := [], params := [], lvl := 0, st := none }
  mapSet s.kv "$severity_s" (severityShort (mapGet s.kv "$severity"))

/-- A piece of the format string: one character outside every match of the
pattern, or one match (with its `$`). -/
inductive fmtToken where
  | lit (c : Char)
  | placeholder (name : String)
  deriving DecidableEq, Repr

/-- The character class `[A-Za-z_]`. -/
def isPlaceholderChar (c : Char) : Bool :=
  ('A'.toNat ≤ c.toNat ∧ c.toNat ≤ 'Z'.toNat) ∨ ('a'.toNat ≤ c.toNat ∧ c.toNat ≤ 'z'.toNat) ∨
    c = '_'

/-- The end of a match candidate: a `$` with no character of the class after it
is ordinary text. -/
def flushPlaceholder (acc : List Char) : List fmtToken :=
  if acc.isEmpty then [.lit '$'] else [.placeholder (String.mk ('$' :: acc))]

/-- The matches of the pattern `\$[A-Za-z_]+` in a text, leftmost and longest,
with the characters between them. `cur` holds the characters of the class read
after a `$` that may start a match. -/
def tokenizeFrom : Option (List Char) → List Char → List fmtToken
  | none, [] => []
  | some acc, [] => flushPlaceholder acc
  | none, c :: cs =>
      if c = '$' then tokenizeFrom (some []) cs else .lit c :: tokenizeFrom none cs
  | some acc, c :: cs =>
      if isPlaceholderChar c then tokenizeFrom (some (acc ++ [c])) cs
      else if c = '$' then flushPlaceholder acc ++ tokenizeFrom (some []) cs
      else flushPlaceholder acc ++ .lit c :: tokenizeFrom none cs

/-- The format string cut at the matches of `l.pat`. -/
def templateTokens (fmtstring : String) : List fmtToken :=
  tokenizeFrom none fmtstring.data

/-- The set `exclude` after `ReplaceAllFunc`: every match, in lower case. -/
def templateExclude (rt : Runtime) (fmtstring : String) : List String :=
  (templateTokens fmtstring).filterMap
    (fun t =>
      match t with
      | .lit _ => none
      | .placeholder name => some (stringsToLower rt name))

/-- The function `useColorForLevel`. -/
def useColorForLevel (frt : FormatRuntime) (lvl : level) (str : String) : String :=
  if lvl ∈ allLevels then frt.color lvl str else str

/-- The callback of `ReplaceAllFunc` in `Log`: the text put in place of one
match. -/
def placeholderText (rt : Runtime) (frt : FormatRuntime) (l : customFormatLogger)
    (kv : List (String × String)) (lvl : level) (name : String) : String :=
  let k := stringsToLower rt name
  let str := mapGet kv k
  if k = "$message" ∧ l.useColors = true then useColorForLevel frt lvl str else str

/-- The value of `out` after `ReplaceAllFunc`: the format string with every
match replaced. -/
def customFormatLogger.substitute (rt : Runtime) (frt : FormatRuntime) (l : customFormatLogger)
    (keyvals : List Value) : String :=
  let s := formatScan rt keyvals { kv := [], params := [], lvl := 0, st := none }
  let kv := formatTable rt keyvals
  String.join ((templateTokens l.fmtstring).map
    (fun t =>
      match t with
      | .lit c => String.mk [c]
      | .placeholder name => placeholderText rt frt l kv s.lvl name))

/-- The key as the logfmt encoder writes it: the runes it rejects are dropped. -/
def logfmtKey (key : String) : String :=
  String.mk (key.data.filter
    (fun r => !(decide (r.toNat ≤ ' '.toNat) || r == '=' || r == '"' || r.toNat == 0xFFFD)))

/-- One record of the go-kit logfmt logger, without the newline that ends it. -/
def logfmtLine (frt : FormatRuntime) (p : List (String × String)) : String :=
  stringsJoin (p.map (fun kv => logfmtKey kv.1 ++ "=" ++ frt.logfmtValue kv.2)) " "

/-- The function `logparams`. -/
def logparams (frt : FormatRuntime) (params : List String) (kv : List (String × String))
    (exclude : List String) : String :=
  logfmtLine frt
    ((params.filter (fun param => decide (param ∉ exclude))).map
      (fun param => (param, mapGet kv param)))

/-- Go `strings.Replace(s, "$.", p, -1)` on the characters of `s`. -/
def replaceDollarDot (p : List Char) : List Char → List Char
  | [] => []
  | [c] => [c]
  | c :: d :: rest =>
      if c = '$' ∧ d = '.' then p ++ replaceDollarDot p rest
      else c :: replaceDollarDot p (d :: rest)

/-- The text `Log` puts in place of `$.`: the rendering of `logparams`, in
parentheses unless it is empty. -/
def customFormatLogger.dotText (rt : Runtime) (frt : FormatRuntime) (l : customFormatLogger)
    (keyvals : List Value) : String :=
  let s := formatScan rt keyvals { kv := [], params := [], lvl := 0, st := none }
  let p := logparams frt s.params (formatTable rt keyvals) (templateExclude rt l.fmtstring)
  if p ≠ "" then "(" ++ p ++ ")" else p

/-- The stack trace block `Log` appends; reading the frames of a `stacktrace`
whose `st` is nil panics. -/
def customFormatLogger.stackBlock (frt : FormatRuntime) (l : customFormatLogger)
    (st : Option (Option GoError)) : Except String String :=
  match st with
  | none => .ok ""
  | some none => .error "invalid memory address or nil pointer dereference"
  | some (some e) =>
      if l.useColors then
        .ok (frt.hiRed "Stack Trace:\n" ++ frt.stackText true (e.StackTrace.getD []))
      else .ok ("Stack Trace:\n" ++ frt.stackText false (e.StackTrace.getD []))

/-- The bytes `Log` hands to the writer. -/
def customFormatLogger.render (rt : Runtime) (frt : FormatRuntime) (l : customFormatLogger)
    (keyvals : List Value) : Except String String :=
  let s := formatScan rt keyvals { kv := [], params := [], lvl := 0, st := none }
  let out := l.substitute rt frt keyvals
  let p := l.dotText rt frt keyvals
  let out := String.mk (replaceDollarDot p.data out.data) ++ "\n"
  match l.stackBlock frt s.st with
  | .error e => .error e
  | .ok block => .ok (out ++ block)

/-- The method `customFormatLogger.Log`: what is written, and the error
returned; `writeErr` is the error of `l.writer.Write`. -/
def customFormatLogger.Log (rt : Runtime) (frt : FormatRuntime) (l : customFormatLogger)
    (keyvals : List Value) (writeErr : Option GoError) :
    Except String (String × Option GoError) :=
  match l.render rt frt keyvals with
  | .error e => .error e
  | .ok out => .ok (out, writeErr.map (fun err => .withStack err rt.errorsCallers))

/-- Collaborators that leave texts as they are. -/
def sampleFrt : FormatRuntime where
  color := fun _ s => s
  hiRed := fun s => s
  logfmtValue := fun s => s
  stackText := fun _ _ => ""

/-- The tasks `Start` launches, one per registered listener; each sends exactly
one value on `h.err` (the result of `ListenAndServe`, `ListenAndServeTLS` or
`Serve`, or the error of `Listen`). -/
def Server.listenerTasks (h : Server) : Nat :=
  h.srv.length + h.gsrv.length

/-- Tasks that each send one value on a buffered channel nobody reads: the
sends beyond the capacity block for ever. -/
def blockedSenders (capacity tasks : Nat) : Nat :=
  tasks - capacity

/-- One task of `Stop`: `Shutdown(ctx)` of an HTTP server, or `GracefulStop()`
of a gRPC server. -/
inductive stopTask where
  | http (s : Nat)
  | grpc (s : grpcServer)
  deriving DecidableEq, Repr

/-- The tasks `Stop` hands to the group, in the order of the two loops. The
group has no context of its own, so every task is started whatever the others
return. -/
def Server.stopTasks (h : Server) : List stopTask :=
  h.srv.map .http ++ h.gsrv.map .grpc

/-- How long each server needs to finish what is in flight, in nanoseconds:
what `Shutdown` of an HTTP server and `GracefulStop` of a gRPC server wait
for. -/
structure StopTimes where
  http : Nat → Nat
  grpc : Nat → Nat

/-- The time one task of `Stop` takes. `Shutdown(ctx)` returns when the server
is done or when `ctx`, made with `h.timeout`, expires; `GracefulStop()` takes
no context and returns when the server is done. -/
def Server.taskTime (h : Server) (t : StopTimes) : stopTask → Nat
  | .http s => min (t.http s) h.timeout
  | .grpc s => t.grpc s.srv

/-- The time `Stop` takes: `g.Wait()` returns when the last task has
returned. -/
def Server.stopTime (h : Server) (t : StopTimes) : Nat :=
  (h.stopTasks.map (h.taskTime t)).foldl max 0

/-! ## Dependency status (`internals/monitoring/depstatus/depstatus.go`) -/

/-- The struct `StatusResponse`. -/
structure StatusResponse where
  Name : String
  Healthy : Bool
  Error : String
  deriving DecidableEq, Repr

/-- The struct `StatusResponses`. -/
structure StatusResponses where
  Deps : List StatusResponse
  AllHealthy : Bool
  deriving DecidableEq, Repr

/-- A registered `StatusProvider` as one request sees it: what its `String()`
returns and what its `Status(ctx)` returns. -/
structure StatusProvider where
  name : String
  status : Option GoError
  deriving DecidableEq, Repr

/-- The struct `StatusHandler`. -/
structure StatusHandler where
  deps : List StatusProvider
  deriving DecidableEq, Repr

/-- The method `Register`. -/
def StatusHandler.Register (h : StatusHandler) (dep : StatusProvider) : StatusHandler :=
  { h with deps := h.deps ++ [dep] }

/-- The method `checkDeps`. -/
def StatusHandler.checkDeps (h : StatusHandler) : StatusResponses :=
  h.deps.foldl
    (fun s dep =>
      let status : StatusResponse := { Name := dep.name, Healthy := true, Error := "" }
      match dep.status with
      | some err =>
          { Deps := s.Deps ++ [{ status with Healthy := false, Error := err.Error }],
            AllHealthy := false }
      | none => { s with Deps := s.Deps ++ [status] })
    { Deps := [], AllHealthy := true }

/-! ## gRPC transport (`services/calculatorservice/transport_grpc.go`) -/

/-- The message `calculatorpb.CalculateRequest`; an absent `Operands` message
is a nil pointer. -/
structure CalculateRequest (F : Type) where
  Operator : Int
  Operands : Option (OPERANDS F)

/-- The message `calculatorpb.CalculateResponse`. -/
structure CalculateResponse (F : Type) where
  Result : F

/-- The method `GRPCHandler.Calculator`, with the calculator service behind
`h.service`: the response pointer and the error. `Except.error` is a panic. -/
def GRPCHandler.Calculator {F : Type} (fl : Float64 F) (pb : OPERATOR)
    (req : CalculateRequest F) :
    Except String (Option (CalculateResponse F) × Option GoError) :=
  match CalculatorService.Calculator fl pb req.Operator req.Operands with
  | .error e => .error e
  | .ok (result, err) =>
      match err with
      | some err => .ok (none, some err)
      | none => .ok (some { Result := result }, none)

/-! ## Remote address (`internals/http/httputils/utils.go`) -/

/-- A Go `int` on a 64-bit platform: the value of an integer expression after
wrap-around. -/
def wrapInt64 (x : Int) : Int :=
  (x + 2 ^ 63) % 2 ^ 64 - 2 ^ 63

/-- The type `net.IP`: a byte slice. A nil slice is `none` where the source
tests for nil. -/
abbrev IP := List Nat

/-- The function `net.IPv4`: the 16-byte form of an IPv4 address. -/
def netIPv4 (a b c d : Nat) : IP :=
  [0, 0, 0, 0, 0, 0, 0, 0, 0, 0, 255, 255, a % 256, b % 256, c % 256, d % 256]

/-- The collaborators of package `net`.

* `parseIP`: `net.ParseIP`, `none` for the nil it returns on text that is not
  an address;
* `splitHostPort`: the host of `net.SplitHostPort`, `none` when it returns an
  error. -/
structure NetRuntime where
  parseIP : String → Option IP
  splitHostPort : String → Option String

/-- What `GetRemoteIPWithOffset` reads of the `http.Request`: the value of
`r.Header.Get("X-Forwarded-For")` and the field `RemoteAddr`. -/
structure Request where
  XForwardedFor : String
  RemoteAddr : String
  deriving DecidableEq, Repr

/-- The function `strings.Split` for a separator of one character, on the
characters of the text: one more part than there are separators. -/
def splitChars (sep : Char) : List Char → List (List Char)
  | [] => [[]]
  | c :: cs =>
      if c = sep then [] :: splitChars sep cs
      else
        match splitChars sep cs with
        | p :: ps => (c :: p) :: ps
        | [] => [[c]]

/-- The function `strings.Split(s, ",")`. -/
def stringsSplitComma (s : String) : List String :=
  (splitChars ',' s.toList).map String.mk

/-- The function `unicode.IsSpace`. -/
def unicodeIsSpace (c : Char) : Bool :=
  c = '\t' || c = '\n' || c.toNat = 11 || c.toNat = 12 || c = '\r' || c = ' ' ||
    c.toNat = 0x85 || c.toNat = 0xA0 || c.toNat = 0x1680 ||
    (0x2000 ≤ c.toNat && c.toNat ≤ 0x200a) || c.toNat = 0x2028 || c.toNat = 0x2029 ||
    c.toNat = 0x202f || c.toNat = 0x205f || c.toNat = 0x3000

/-- The function `strings.TrimSpace`. -/
def stringsTrimSpace (s : String) : String :=
  String.mk ((s.toList.dropWhile unicodeIsSpace).reverse.dropWhile unicodeIsSpace).reverse

/-- The entries of the header as the loop of `GetRemoteIPWithOffset` leaves
them: split at the commas, each trimmed. -/
def xffEntries (xff : String) : List String :=
  (stringsSplitComma xff).map stringsTrimSpace

/-- The second and third choice of `GetRemoteIPWithOffset`: the host of
`RemoteAddr`, then `net.IPv4(169, 254, 0, 1)`. -/
def remoteAddrOrDefault (n : NetRuntime) (r : Request) : IP :=
  let dflt := netIPv4 169 254 0 1
  if r.RemoteAddr ≠ "" then
    match n.splitHostPort r.RemoteAddr with
    | some host =>
        match n.parseIP host with
        | some ip => ip
        | none => dflt
    | none => dflt
  else dflt

/-- The function `GetRemoteIPWithOffset`. `Except.error` is the panic of an
index outside the slice; `none` inside `ok` would be a nil `net.IP`. -/
def GetRemoteIPWithOffset (n : NetRuntime) (r : Request) (xffOffset : Int) :
    Except String (Option IP) :=
  if r.XForwardedFor ≠ "" then
    let ips := xffEntries r.XForwardedFor
    let partIndex := wrapInt64 ((ips.length : Int) - 1 - xffOffset)
    let partIndex := if partIndex < 0 then 0 else partIndex
    match ips.get? partIndex.toNat with
    | none => .error "index out of range"
    | some p =>
        match n.parseIP p with
        | some ip => .ok (some ip)
        | none => .ok (some (remoteAddrOrDefault n r))
  else .ok (some (remoteAddrOrDefault n r))

/-- The function `GetRemoteIP`. -/
def GetRemoteIP (n : NetRuntime) (r : Request) : Except String (Option IP) :=
  GetRemoteIPWithOffset n r 1

/-- One field of a dotted-decimal address as `net.ParseIP` reads it: one to
three decimal digits, no leading zero before another digit, at most 255. -/
def parseIPv4Field (cs : List Char) : Option Nat :=
  let v := cs.foldl (fun a c => 10 * a + (c.toNat - '0'.toNat)) 0
  if cs ≠ [] ∧ cs.length ≤ 3 ∧ cs.all Char.isDigit = true ∧
      ¬ (1 < cs.length ∧ cs.head? = some '0') ∧ v ≤ 255 then some v
  else none

/-- The dotted-decimal case of `net.ParseIP`: four fields between dots. The
other forms of an address (IPv6) are not read here. -/
def parseDottedDecimal (s : String) : Option IP :=
  match (splitChars '.' s.toList).map parseIPv4Field with
  | [some a, some b, some c, some d] => some (netIPv4 a b c d)
  | _ => none

/-- The case of `net.SplitHostPort` without brackets: the text before the one
colon. A text with brackets is not read here. -/
def splitHostPortPlain (s : String) : Option String :=
  match splitChars ':' s.toList with
  | [host, _] =>
      if host.all (fun c => c ≠ '[' ∧ c ≠ ']') = true ∧
          s.toList.all (fun c => c ≠ '[' ∧ c ≠ ']') = true then some (String.mk host)
      else none
  | _ => none

/-- Collaborators for IPv4 texts: dotted-decimal addresses and `host:port`. -/
def sampleNet : NetRuntime where
  parseIP := parseDottedDecimal
  splitHostPort := splitHostPortPlain

/-! ## The go-kit entry point (`logger.Log`, `internals/logger/logger.go`) -/

/-- The renaming of a lowercased key in the loop of `Log`: `msg` becomes
`message`, `ts` becomes `time`. -/
def logKey (key : String) : String :=
  let key := if key = "msg" then "message" else key
  if key = "ts" then "time" else key

/-- The text of the value of a `level` or `severity` key in `Log`: the string
itself, or `String()` of a go-kit level value; `none` for any other value. -/
def logLevelText : Value → Option String
  | .str s => some s
  | .levelValue name => some name
  | _ => none

/-- The loop of `Log` over the pairs, with the level and the `remaining` slice
so far. `none` is the early `return nil` for a level that is not allowed; a
last key without a value is skipped. -/
def logger.logScan (rt : Runtime) (l : logger) :
    List Value → level → List Value → Option (level × List Value)
  | k :: v :: rest, lvl, remaining =>
      match k with
      | .str key =>
          if stringsToLower rt key = "level" ∨ stringsToLower rt key = "severity" then
            match logLevelText v with
            | none => l.logScan rt rest lvl remaining
            | some str =>
                if !l.isAllowed (loglevelFromString rt str).1 then none
                else l.logScan rt rest (loglevelFromString rt str).1 remaining
          else
            l.logScan rt rest lvl (remaining ++ [.str (logKey (stringsToLower rt key)), v])
      | _ => l.logScan rt rest lvl (remaining ++ [k, v])
  | _, lvl, remaining => some (lvl, remaining)

/-- The method `Log`: the go-kit logger interface. The world after the call
and the returned error; `Except.error` is a panic. -/
def logger.Log (rt : Runtime) (l : logger) (keyvals : List Value) (w : World) :
    Except String (World × Option GoError) :=
  match l.logScan rt keyvals levelDebug [] with
  | none => .ok (w, none)
  | some (lvl, remaining) =>
      match l.logWithFallback rt lvl 1 remaining w with
      | .error e => .error e
      | .ok w => .ok (w, none)

/-- Whether a key of `Log` is a string that is `level` or `severity` in lower
case. -/
def isLevelKey (rt : Runtime) : Value → Bool
  | .str key => decide (stringsToLower rt key = "level" ∨ stringsToLower rt key = "severity")
  | _ => false

/-- Whether no key of a key/value list is a level key. -/
def noLevelKey (rt : Runtime) : List Value → Bool
  | k :: _ :: rest => !isLevelKey rt k && noLevelKey rt rest
  | _ => true

/-- The pairs of a key/value list with the string keys in lower case and `msg`
and `ts` renamed; a last key without a value is left out. -/
def renamedPairs (rt : Runtime) : List Value → List Value
  | k :: v :: rest =>
      (match k with
        | .str key => .str (logKey (stringsToLower rt key))
        | _ => k) :: v :: renamedPairs rt rest
  | _ => []

/-- The value of `out` after `ReplaceAllFunc` for a part of the format string
given by its pieces: `substitute` is this text for all pieces. -/
def customFormatLogger.substituteTokens (rt : Runtime) (frt : FormatRuntime)
    (l : customFormatLogger) (keyvals : List Value) (ts : List fmtToken) : String :=
  let s := formatScan rt keyvals { kv := [], params := [], lvl := 0, st := none }
  let kv := formatTable rt keyvals
  String.join (ts.map
    (fun t =>
      match t with
      | .lit c => String.mk [c]
      | .placeholder name => placeholderText rt frt l kv s.lvl name))

/-- Whether a text holds the two characters "$." next to each other. -/
def hasDollarDot : List Char → Bool
  | c :: d :: rest => (decide (c = '$') && decide (d = '.')) || hasDollarDot (d :: rest)
  | _ => false

/-! ## Theorems -/

/-! ### Severity model -/

theorem runeToLower_of_ascii (rt : Runtime) (c : Char) (h : c.toNat < 128) :
    runeToLower rt c = c.toLower := by
  simp only [runeToLower, h, if_true, Char.toLower]
  rfl

theorem ascii_of_toLower_ascii (c : Char) (h : c.toLower.toNat < 128) : c.toNat < 128 := by
  unfold Char.toLower at h
  by_cases hc : c.toNat ≥ 65 ∧ c.toNat ≤ 90
  · omega
  · simpa [hc] using h

/-- On a string whose ASCII lowering is all ASCII, Go lowering is the ASCII
lowering, whatever the Unicode tables say. -/
theorem stringsToLower_of_toLower (rt : Runtime) (s n : String)
    (hn : ∀ c ∈ n.data, c.toNat < 128) (h : s.toLower = n) : stringsToLower rt s = n := by
  have hmap : s.data.map Char.toLower = n.data := by
    rw [← h, String.toLower, String.map_eq]
  have hascii : ∀ c ∈ s.data, c.toNat < 128 := by
    intro c hc
    apply ascii_of_toLower_ascii
    apply hn
    rw [← hmap]
    exact List.mem_map_of_mem _ hc
  have : s.data.map (runeToLower rt) = s.data.map Char.toLower :=
    List.map_congr_left (fun c hc => runeToLower_of_ascii rt c (hascii c hc))
  unfold stringsToLower
  rw [this, hmap]

/-- C1: for every threshold level T and every candidate level C among the six
severities, a logger whose loglevel is `allLevelsFrom T` allows C exactly when C is
at least as severe as T, where "at least as severe" is the order of declaration
(equivalently the numeric order of the level bits). -/
theorem C1_isAllowed_allLevelsFrom (l : logger) (T C : level)
    (hT : T ∈ allLevels) (hC : C ∈ allLevels) (hl : l.loglevel = allLevelsFrom T) :
    (l.isAllowed C = true ↔ allLevels.indexOf T ≤ allLevels.indexOf C) ∧
      (allLevels.indexOf T ≤ allLevels.indexOf C ↔ T ≤ C) := by
  have key : ∀ T ∈ allLevels, ∀ C ∈ allLevels,
      (((allLevelsFrom T &&& C) != 0) = true ↔ allLevels.indexOf T ≤ allLevels.indexOf C) ∧
        (allLevels.indexOf T ≤ allLevels.indexOf C ↔ T ≤ C) := by decide
  have h := key T hT C hC
  simpa [logger.isAllowed, hl] using h

theorem C1_isAllowed_allLevelsFrom_witness :
    ((createLogger ⟨0, []⟩).isAllowed levelWarn = true ↔
        allLevels.indexOf levelInfo ≤ allLevels.indexOf levelWarn) ∧
      (allLevels.indexOf levelInfo ≤ allLevels.indexOf levelWarn ↔ levelInfo ≤ levelWarn) :=
  C1_isAllowed_allLevelsFrom (createLogger ⟨0, []⟩) levelInfo levelWarn
    (by decide) (by decide) (by decide)

/-- C5: `loglevelFromString` maps every spelling of an accepted name, in any
mix of upper and lower case, to the level the name stands for (debug, info,
notice, warn/warning, error/err, fatal/critical, and the empty string as Debug),
with no error, and that level is a single one of the six level bits. A spelling
counts when Go lowering or plain ASCII lowering turns it into the name. -/
theorem C5_loglevelFromString_accepted (rt : Runtime) (s n : String) (L : level)
    (hn : (n, L) ∈ acceptedLevelNames) (hs : stringsToLower rt s = n ∨ s.toLower = n) :
    loglevelFromString rt s = (L, none) ∧ L ∈ allLevels := by
  have hascii : ∀ m ∈ acceptedLevelNames, ∀ c ∈ m.1.data, c.toNat < 128 := by decide
  have hlow : stringsToLower rt s = n := by
    rcases hs with h | h
    · exact h
    · exact stringsToLower_of_toLower rt s n (hascii (n, L) hn) h
  have table : ∀ m ∈ acceptedLevelNames,
      (if m.1 = "debug" then (levelDebug, (none : Option GoError))
        else if m.1 = "info" then (levelInfo, none)
        else if m.1 = "notice" then (levelNotice, none)
        else if m.1 = "warn" ∨ m.1 = "warning" then (levelWarn, none)
        else if m.1 = "error" ∨ m.1 = "err" then (levelError, none)
        else if m.1 = "fatal" ∨ m.1 = "critical" then (levelCritical, none)
        else if m.1 = "" then (levelDebug, none)
        else (levelDebug, none)) = (m.2, none) ∧ m.2 ∈ allLevels := by decide
  have h := table (n, L) hn
  refine ⟨?_, h.2⟩
  have h1 := h.1
  simp only at h1
  unfold loglevelFromString
  simp only [hlow]
  by_cases c1 : n = "debug"
  · simpa [c1] using h1
  by_cases c2 : n = "info"
  · simpa [c1, c2] using h1
  by_cases c3 : n = "notice"
  · simpa [c1, c2, c3] using h1
  by_cases c4 : n = "warn" ∨ n = "warning"
  · simpa [c1, c2, c3, c4] using h1
  by_cases c5 : n = "error" ∨ n = "err"
  · simpa [c1, c2, c3, c4, c5] using h1
  by_cases c6 : n = "fatal" ∨ n = "critical"
  · simpa [c1, c2, c3, c4, c5, c6] using h1
  by_cases c7 : n = ""
  · simpa [c1, c2, c3, c4, c5, c6, c7] using h1
  · exfalso
    have : ∀ m ∈ acceptedLevelNames, m.1 = "debug" ∨ m.1 = "info" ∨ m.1 = "notice" ∨
        (m.1 = "warn" ∨ m.1 = "warning") ∨ (m.1 = "error" ∨ m.1 = "err") ∨
        (m.1 = "fatal" ∨ m.1 = "critical") ∨ m.1 = "" := by decide
    have := this (n, L) hn
    simp only at this
    tauto

theorem C5_loglevelFromString_accepted_witness :
    loglevelFromString sampleRt "WaRnInG" = (levelWarn, none) ∧ levelWarn ∈ allLevels :=
  C5_loglevelFromString_accepted sampleRt "WaRnInG" "warning" levelWarn
    (by decide) (Or.inl (by decide))

/-- C7: round trip: for every single level L among the six severities, parsing
the text of `L.String()` with `loglevelFromString` returns L and no error. -/
theorem C7_String_loglevelFromString_roundtrip (rt : Runtime) (L : level)
    (hL : L ∈ allLevels) : loglevelFromString rt (level.String L) = (L, none) := by
  simp only [allLevels, List.mem_cons, List.mem_singleton, List.not_mem_nil, or_false] at hL
  rcases hL with h | h | h | h | h | h <;> subst h <;> rfl

theorem C7_String_loglevelFromString_roundtrip_witness :
    loglevelFromString sampleRt (level.String levelNotice) = (levelNotice, none) :=
  C7_String_loglevelFromString_roundtrip sampleRt levelNotice (by decide)

/-- C8: for every threshold level T among the six severities, `String` applied
to `allLevelsFrom T` is the names of exactly the levels at least as severe as T,
each once, in ascending severity order, joined with " | "; for T = Error it is
"error | critical". -/
theorem C8_String_allLevelsFrom (T : level) (hT : T ∈ allLevels) :
    level.String (allLevelsFrom T) =
        stringsJoin ((allLevels.filter (fun C => decide (T ≤ C))).map level.String) " | " ∧
      level.String (allLevelsFrom levelError) = "error | critical" := by
  have key : ∀ T ∈ allLevels, level.String (allLevelsFrom T) =
        stringsJoin ((allLevels.filter (fun C => decide (T ≤ C))).map level.String) " | " ∧
      level.String (allLevelsFrom levelError) = "error | critical" := by decide
  exact key T hT

theorem C8_String_allLevelsFrom_witness :
    level.String (allLevelsFrom levelWarn) =
        stringsJoin ((allLevels.filter (fun C => decide (levelWarn ≤ C))).map level.String)
          " | " ∧
      level.String (allLevelsFrom levelError) = "error | critical" :=
  C8_String_allLevelsFrom levelWarn (by decide)

/-! ### Calculator -/

theorem OPERATOR.ne_of_distinct (pb : OPERATOR) :
    pb.OPERATOR_ADD ≠ pb.OPERATOR_MULTIPLY ∧ pb.OPERATOR_ADD ≠ pb.OPERATOR_SUBTRACT ∧
      pb.OPERATOR_ADD ≠ pb.OPERATOR_DIVIDE ∧ pb.OPERATOR_MULTIPLY ≠ pb.OPERATOR_SUBTRACT ∧
      pb.OPERATOR_MULTIPLY ≠ pb.OPERATOR_DIVIDE ∧ pb.OPERATOR_SUBTRACT ≠ pb.OPERATOR_DIVIDE := by
  have h := pb.distinct
  simp only [List.nodup_cons, List.mem_cons, List.mem_singleton, List.not_mem_nil, not_or,
    or_false] at h
  tauto

/-- C2: for every operands pair (n1, n2), `Calculator` returns n1+n2 for ADD,
n1-n2 for SUBTRACT, n1*n2 for MULTIPLY and, when n2 does not compare equal to
zero, n1/n2 for DIVIDE, each with a nil error and without panicking; the
operators are those of the `float64` carrier. -/
theorem C2_Calculator_arithmetic {F : Type} (fl : Float64 F) (pb : OPERATOR) (n1 n2 : F) :
    Calculator fl pb pb.OPERATOR_ADD (some ⟨n1, n2⟩) = .ok (fl.add n1 n2, none) ∧
      Calculator fl pb pb.OPERATOR_SUBTRACT (some ⟨n1, n2⟩) = .ok (fl.sub n1 n2, none) ∧
      Calculator fl pb pb.OPERATOR_MULTIPLY (some ⟨n1, n2⟩) = .ok (fl.mul n1 n2, none) ∧
      (fl.eqZero n2 = false →
        Calculator fl pb pb.OPERATOR_DIVIDE (some ⟨n1, n2⟩) = .ok (fl.div n1 n2, none)) := by
  obtain ⟨h1, h2, h3, h4, h5, h6⟩ := pb.ne_of_distinct
  refine ⟨?_, ?_, ?_, ?_⟩
  · simp [Calculator, deref, add, Except.map]
  · simp [Calculator, deref, subtract, Except.map, h2.symm, h4.symm]
  · simp [Calculator, deref, multiply, Except.map, h1.symm]
  · intro hz
    simp [Calculator, deref, divide, Except.map, h3.symm, h5.symm, h6.symm, hz]

/-- The four cases of `Test_Calculator`, run on exact rational arithmetic:
ADD(2,5)=7, SUBTRACT(10,5)=5, DIVIDE(17,4)=4.25, MULTIPLY(2,9)=18. -/
theorem C2_Calculator_arithmetic_witness :
    Calculator ratFloat64 samplePb samplePb.OPERATOR_ADD (some ⟨2, 5⟩) = .ok (7, none) ∧
      Calculator ratFloat64 samplePb samplePb.OPERATOR_SUBTRACT (some ⟨10, 5⟩) = .ok (5, none) ∧
      ratFloat64.eqZero 4 = false ∧
      Calculator ratFloat64 samplePb samplePb.OPERATOR_DIVIDE (some ⟨17, 4⟩) =
        .ok (4.25, none) ∧
      Calculator ratFloat64 samplePb samplePb.OPERATOR_MULTIPLY (some ⟨2, 9⟩) = .ok (18, none) := by
  have hz : ratFloat64.eqZero 4 = false := by simp [ratFloat64]
  refine ⟨?_, ?_, hz, ?_, ?_⟩
  · rw [(C2_Calculator_arithmetic ratFloat64 samplePb 2 5).1]
    norm_num [ratFloat64]
  · rw [(C2_Calculator_arithmetic ratFloat64 samplePb 10 5).2.1]
    norm_num [ratFloat64]
  · rw [(C2_Calculator_arithmetic ratFloat64 samplePb 17 4).2.2.2 hz]
    norm_num [ratFloat64]
  · rw [(C2_Calculator_arithmetic ratFloat64 samplePb 2 9).2.2.1]
    norm_num [ratFloat64]

/-- C3: `Calculator` with operator DIVIDE returns normally for every operands
pair, and it returns an error if and only if the second operand compares equal
to zero; in that case the result is 0 and the error message is
"you can not divide <n1> by <n2>", both operands rendered with the `%F` verb. -/
theorem C3_Calculator_divide_by_zero {F : Type} (fl : Float64 F) (pb : OPERATOR) (n1 n2 : F) :
    ∃ r, Calculator fl pb pb.OPERATOR_DIVIDE (some ⟨n1, n2⟩) = .ok r ∧
      (r.2.isSome = true ↔ fl.eqZero n2 = true) ∧
      (fl.eqZero n2 = true → r.1 = fl.zero ∧
        r.2 = some (.errorString
          ("you can not divide " ++ fl.fmtF n1 ++ " by " ++ fl.fmtF n2))) := by
  obtain ⟨h1, h2, h3, h4, h5, h6⟩ := pb.ne_of_distinct
  cases hz : fl.eqZero n2 <;>
    simp [Calculator, deref, divide, Except.map, h3.symm, h5.symm, h6.symm, hz, GoError.Error]

theorem C3_Calculator_divide_by_zero_witness :
    ratFloat64.eqZero 0 = true ∧
      Calculator ratFloat64 samplePb samplePb.OPERATOR_DIVIDE (some ⟨17, 0⟩) =
        .ok (0, some (.errorString "you can not divide 17.000000 by 0.000000")) := by
  have hz : ratFloat64.eqZero 0 = true := by simp [ratFloat64]
  refine ⟨hz, ?_⟩
  obtain ⟨r, hr, _, h⟩ := C3_Calculator_divide_by_zero ratFloat64 samplePb 17 0
  obtain ⟨hres, hmsg⟩ := h hz
  have h17 : ratFloat64.fmtF 17 = "17.000000" := by decide
  have h0 : ratFloat64.fmtF 0 = "0.000000" := by decide
  rw [h17, h0] at hmsg
  rw [hr]
  obtain ⟨res, err⟩ := r
  simp only at hres hmsg
  rw [hres, hmsg]
  rfl

/-- C4, as the code has it: for every operator value other than ADD, SUBTRACT,
MULTIPLY and DIVIDE, and for every operands value (a nil pointer included),
`Calculator` returns result 0 together with a plain error whose message is
"error: some arguments are not supplied"; the error carries no gRPC status, so
its class on the wire is `Unknown`. -/
theorem C4_Calculator_unknown_operator {F : Type} (fl : Float64 F) (pb : OPERATOR)
    (operator : Int) (operands : Option (OPERANDS F))
    (hop : operator ∉
      [pb.OPERATOR_ADD, pb.OPERATOR_SUBTRACT, pb.OPERATOR_MULTIPLY, pb.OPERATOR_DIVIDE]) :
    Calculator fl pb operator operands =
        .ok (fl.zero, some (.errorString "error: some arguments are not supplied")) ∧
      stringsContains
        (GoError.errorString "error: some arguments are not supplied").Error
        "some arguments are not supplied" = true ∧
      statusCode (some (.errorString "error: some arguments are not supplied")) = .Unknown := by
  simp only [List.mem_cons, List.mem_singleton, List.not_mem_nil, or_false, not_or] at hop
  obtain ⟨h1, h2, h3, h4⟩ := hop
  refine ⟨?_, by decide, rfl⟩
  simp [Calculator, h1, h2, h3, h4]

theorem C4_Calculator_unknown_operator_witness :
    (0 : Int) ∉ [samplePb.OPERATOR_ADD, samplePb.OPERATOR_SUBTRACT,
        samplePb.OPERATOR_MULTIPLY, samplePb.OPERATOR_DIVIDE] ∧
      Calculator ratFloat64 samplePb 0 none =
        .ok (0, some (.errorString "error: some arguments are not supplied")) :=
  ⟨by decide, (C4_Calculator_unknown_operator ratFloat64 samplePb 0 none (by decide)).1⟩

/-- C4 as stated fails: for the operator value 0, which is none of the four
constants of `samplePb`, the error `Calculator` returns is not of class
`InvalidArgument`. -/
theorem C4_counterexample :
    ¬ ∃ r, Calculator ratFloat64 samplePb 0 (some ⟨1, 2⟩) = .ok r ∧ r.1 = 0 ∧
      statusCode r.2 = .InvalidArgument := by
  rintro ⟨r, hr, _, hcode⟩
  have h : Calculator ratFloat64 samplePb 0 (some ⟨1, 2⟩) =
      .ok (0, some (.errorString "error: some arguments are not supplied")) := by
    simp [Calculator, samplePb, ratFloat64]
  rw [h] at hr
  cases hr
  simp [statusCode] at hcode

/-! ### Structured logger -/

theorem scanParams_ok (rt : Runtime) (pfx : String) :
    ∀ params : List Value, params.length % 2 = 0 →
      ∃ ps has, scanParams rt pfx params = .ok (ps, has) ∧ ps.length = params.length
  | [], _ => ⟨[], false, rfl, rfl⟩
  | [_], h => by simp at h
  | k :: v :: rest, h => by
      have hr : rest.length % 2 = 0 := by
        simp only [List.length_cons] at h
        omega
      obtain ⟨ps, has, hps, hlen⟩ := scanParams_ok rt pfx rest hr
      simp only [scanParams, hps]
      split_ifs <;> simp [hlen]

theorem fallbackParams_ok (rt : Runtime) :
    ∀ params : List Value, params.length % 2 = 0 → ∃ s, fallbackParams rt params = .ok s
  | [], _ => ⟨"", rfl⟩
  | [_], h => by simp at h
  | k :: v :: rest, h => by
      have hr : rest.length % 2 = 0 := by
        simp only [List.length_cons] at h
        omega
      obtain ⟨s, hs⟩ := fallbackParams_ok rt rest hr
      simp [fallbackParams, hs]

theorem padKeyvals_eq (keyvals : List Value) : ∃ t, padKeyvals keyvals = keyvals ++ t := by
  unfold padKeyvals
  split_ifs
  · exact ⟨[], by simp⟩
  · exact ⟨[ErrMissingValue], rfl⟩

theorem legacyLevelName_isSome (lvl : level) (hlvl : lvl ∈ allLevels) :
    ∃ name, legacyLevelName lvl = some name := by
  have key : ∀ lvl ∈ allLevels, (legacyLevelName lvl).isSome = true := by decide
  exact Option.isSome_iff_exists.mp (key lvl hlvl)

theorem appendSourceLocation_even (rt : Runtime) (depth : Nat) (has : Bool)
    (ps : List Value) (h : ps.length % 2 = 0) :
    (appendSourceLocation rt depth has ps).length % 2 = 0 := by
  unfold appendSourceLocation
  cases rt.caller (depth + 2) with
  | none => simpa using h
  | some loc =>
    cases has
    · simp only [Bool.false_eq_true, if_false, List.length_append, List.length_cons,
        List.length_nil]
      omega
    · simpa using h

/-- The last step on a key/value list of even length: it returns normally and
adds exactly the record `gkRecord lg params` for the sink of `lg`. -/
theorem logOrPrintln_spec (rt : Runtime) (lg : GKLogger) (lvl : level) (params : List Value)
    (w : World) (heven : params.length % 2 = 0) :
    ∃ w', logOrPrintln rt lg lvl params w = .ok w' ∧
      w'.written = w.written ++ [(lg.sink, gkRecord lg params)] ∧
      w'.increments = w.increments ∧ w'.exit = w.exit := by
  obtain ⟨fb, hfb⟩ := fallbackParams_ok rt params heven
  unfold logOrPrintln
  cases hsink : rt.sinkLog lg.sink (gkRecord lg params) with
  | none =>
    simp only [hsink]
    exact ⟨_, rfl, rfl, rfl, rfl⟩
  | some err =>
    simp only [hsink, hfb]
    exact ⟨_, rfl, rfl, rfl, rfl⟩

/-- The go-kit logger `logWithFallback` logs through, for one of the six levels:
the sink is the one of the logger, and every record begins with the bound
key/values and the severity pair, or for a legacy logger with the go-kit level
pair. -/
theorem levelLogger_spec (l : logger) (lvl : level) (hlvl : lvl ∈ allLevels) :
    ∃ lg, l.levelLogger lvl = .ok lg ∧ lg.sink = l.gklogger.sink ∧
      (l.useLegacyLevels = false → ∀ params, ∃ rest, gkRecord lg params =
        l.gklogger.keyvals ++ .str "severity" :: .str (level.String lvl) :: rest) ∧
      (l.useLegacyLevels = true → ∀ params, ∃ name rest, legacyLevelName lvl = some name ∧
        gkRecord lg params = .str "level" :: .levelValue name :: rest) := by
  obtain ⟨name, hname⟩ := legacyLevelName_isSome lvl hlvl
  unfold logger.levelLogger
  cases hleg : l.useLegacyLevels
  · refine ⟨logWith l.gklogger [Value.str "severity", Value.str (level.String lvl)],
      by simp, by simp [logWith], fun _ params => ?_, fun h => by simp at h⟩
    obtain ⟨t1, ht1⟩ := padKeyvals_eq
      (l.gklogger.keyvals ++ [Value.str "severity", Value.str (level.String lvl)])
    obtain ⟨t2, ht2⟩ := padKeyvals_eq
      ((l.gklogger.keyvals ++ [Value.str "severity", Value.str (level.String lvl)]) ++ t1
        ++ params)
    refine ⟨t1 ++ params ++ t2, ?_⟩
    simp only [gkRecord, logWith, List.isEmpty_cons, Bool.false_eq_true, if_false, ht1, ht2]
    simp
  · refine ⟨logWithPrefix l.gklogger [Value.str "level", Value.levelValue name],
      by simp [hname], by simp [logWithPrefix], fun h => by simp at h, fun _ params => ?_⟩
    obtain ⟨t2, ht2⟩ := padKeyvals_eq
      ([Value.str "level", Value.levelValue name] ++ l.gklogger.keyvals ++ params)
    refine ⟨name, l.gklogger.keyvals ++ params ++ t2, hname, ?_⟩
    have hpad : padKeyvals [Value.str "level", Value.levelValue name] =
        [Value.str "level", Value.levelValue name] := by simp [padKeyvals]
    simp only [gkRecord, logWithPrefix, List.isEmpty_cons, Bool.false_eq_true, if_false, hpad,
      ht2]
    simp

/-- What one call of `logWithFallback` on a key/value list of even length does:
it returns normally, touches neither the counters nor the exit status, leaves
the world as it is when the level is filtered out, and otherwise hands exactly
one record to the sink of the logger, led by the bound key/values and the
severity pair (or, for a legacy logger, by the go-kit level pair). -/
theorem logWithFallback_spec (rt : Runtime) (l : logger) (lvl : level) (depth : Nat)
    (params : List Value) (w : World) (hlvl : lvl ∈ allLevels)
    (heven : params.length % 2 = 0) :
    ∃ w', l.logWithFallback rt lvl depth params w = .ok w' ∧
      w'.increments = w.increments ∧ w'.exit = w.exit ∧
      (l.isAllowed lvl = false → w' = w) ∧
      (l.isAllowed lvl = true →
        ∃ record, w'.written = w.written ++ [(l.gklogger.sink, record)] ∧
          (l.useLegacyLevels = false → ∃ rest, record =
            l.gklogger.keyvals ++ .str "severity" :: .str (level.String lvl) :: rest) ∧
          (l.useLegacyLevels = true → ∃ name rest, legacyLevelName lvl = some name ∧
            record = .str "level" :: .levelValue name :: rest)) := by
  unfold logger.logWithFallback
  cases hallow : l.isAllowed lvl
  · exact ⟨w, by simp, rfl, rfl, fun _ => rfl, fun h => by simp at h⟩
  · obtain ⟨ps, has, hps, hlen⟩ := scanParams_ok rt l.logPrefix params heven
    obtain ⟨lg, hlg, hsink, hplain, hlegacy⟩ := levelLogger_spec l lvl hlvl
    have hps2 := appendSourceLocation_even rt depth has ps (by rw [hlen]; exact heven)
    obtain ⟨w', hw', hwritten, hinc, hexit⟩ :=
      logOrPrintln_spec rt lg lvl (appendSourceLocation rt depth has ps) w hps2
    refine ⟨w', ?_, hinc, hexit, fun h => by simp at h, fun _ => ?_⟩
    · simp only [hps, hlg, Bool.not_true, Bool.false_eq_true, if_false]
      exact hw'
    · refine ⟨gkRecord lg (appendSourceLocation rt depth has ps), ?_,
        fun h => hplain h _, fun h => hlegacy h _⟩
      rw [hwritten, hsink]

theorem logError_spec (rt : Runtime) (l : logger) (err : GoError) (lvl : level) (depth : Nat)
    (w : World) (hlvl : lvl ∈ allLevels) :
    ∃ w', l.logError rt err lvl depth w = .ok w' ∧
      w'.increments = w.increments ∧ w'.exit = w.exit ∧
      (l.isAllowed lvl = false → w' = w) ∧
      (l.isAllowed lvl = true →
        ∃ record, w'.written = w.written ++ [(l.gklogger.sink, record)]) := by
  obtain ⟨w', hw', hinc, hexit, hno, hyes⟩ := logWithFallback_spec rt l lvl (depth + 1)
    [.str "message", .str err.Error, .str "stacktrace", .stacktrace (getUnderlyingStacktrace err)]
    w hlvl (by simp)
  refine ⟨w', hw', hinc, hexit, hno, fun h => ?_⟩
  obtain ⟨record, hrec, _⟩ := hyes h
  exact ⟨record, hrec⟩

theorem levelCritical_mem : levelCritical ∈ allLevels := by decide

theorem logFancy_increments (rt : Runtime) (l : logger) (depth : Nat) (lvl : level)
    (p : List Value) (w : World) (hlvl : lvl ∈ allLevels) :
    ∃ w', l.logFancy rt depth lvl p w = .ok w' ∧
      w'.increments =
        (if lvl = levelCritical ∨ lvl = levelError then l.incMetric w else w).increments := by
  have hE : ∀ (err : GoError) (lvl' : level) (w0 : World), lvl' ∈ allLevels →
      ∃ w', l.logError rt err lvl' (depth + 1) w0 = .ok w' ∧ w'.increments = w0.increments := by
    intro err lvl' w0 h
    obtain ⟨w', h1, h2, _⟩ := logError_spec rt l err lvl' (depth + 1) w0 h
    exact ⟨w', h1, h2⟩
  have hW : ∀ (msg : String) (w0 : World),
      ∃ w', l.logWithFallback rt lvl (depth + 1) [.str "message", .str msg] w0 = .ok w' ∧
        w'.increments = w0.increments := by
    intro msg w0
    obtain ⟨w', h1, h2, _⟩ := logWithFallback_spec rt l lvl (depth + 1)
      [.str "message", .str msg] w0 hlvl (by simp)
    exact ⟨w', h1, h2⟩
  unfold logger.logFancy
  simp only []
  generalize (if lvl = levelCritical ∨ lvl = levelError then l.incMetric w else w) = w1
  split
  · split
    · exact hE _ _ _ hlvl
    · exact hW _ _
  · exact hE _ _ _ levelCritical_mem
  · split
    · exact hE _ _ _ hlvl
    · exact hE _ _ _ hlvl
    · exact hE _ _ _ levelCritical_mem
  · split
    · obtain ⟨w2, h2, hi2⟩ := hE (errorsNew rt
          "parameter order in the logger should be (error, string), not (string, error)")
        levelCritical w1 levelCritical_mem
      simp only [h2]
      exact (hE _ lvl w2 hlvl).imp fun w' h => ⟨h.1, h.2.trans hi2⟩
    · split
      · exact hE _ _ _ hlvl
      · exact hW _ _
  · exact hE _ _ _ levelCritical_mem

/-- C6: for every string whose Go lowering is neither empty nor one of the
accepted level names, `loglevelFromString` returns an error together with the
level Debug, and `SetLogLevel` called with that string returns normally and
leaves the logger allowing all six severities. -/
theorem C6_unknown_level_falls_back_to_debug (rt : Runtime) (l : logger) (s : String)
    (w : World) (hs : stringsToLower rt s ∉ acceptedLevelNames.map Prod.fst) :
    (∃ err, loglevelFromString rt s = (levelDebug, some err)) ∧
      ∃ l' w', l.SetLogLevel rt s w = .ok (l', w') ∧
        ∀ C ∈ allLevels, l'.isAllowed C = true := by
  simp only [acceptedLevelNames, List.map_cons, List.map_nil, List.mem_cons,
    List.mem_singleton, List.not_mem_nil, or_false, not_or] at hs
  obtain ⟨h1, h2, h3, h4, h5, h6, h7, h8, h9, h10⟩ := hs
  have hparse : loglevelFromString rt s = (levelDebug,
      some (errorsErrorf rt "loglevel is set to unknown value `%s`" [.str s])) := by
    simp [loglevelFromString, h1, h2, h3, h4, h5, h6, h7, h8, h9, h10]
  refine ⟨⟨_, hparse⟩, ?_⟩
  obtain ⟨w', hw', _⟩ := logFancy_increments rt l 0 levelError
    [.error (errorsErrorf rt "loglevel is set to unknown value `%s`" [.str s])] w
    (by decide)
  refine ⟨{ l with loglevel := allLevelsFrom levelDebug }, w', ?_, ?_⟩
  · simp only [logger.SetLogLevel, allLoglevelsFromString, hparse, logger.Error, hw']
  · have key : ∀ C ∈ allLevels, ((allLevelsFrom levelDebug &&& C) != 0) = true := by decide
    intro C hC
    simpa [logger.isAllowed] using key C hC

theorem C6_unknown_level_falls_back_to_debug_witness :
    stringsToLower sampleRt "Verbose" ∉ acceptedLevelNames.map Prod.fst ∧
      (∃ err, loglevelFromString sampleRt "Verbose" = (levelDebug, some err)) ∧
      ∃ l' w', (createLogger ⟨0, []⟩).SetLogLevel sampleRt "Verbose" World.empty =
          .ok (l', w') ∧
        ∀ C ∈ allLevels, l'.isAllowed C = true :=
  ⟨by decide,
    C6_unknown_level_falls_back_to_debug sampleRt (createLogger ⟨0, []⟩) "Verbose"
      World.empty (by decide)⟩

/-- C9, as the code has it: for every logger, every one of the six severities
and every record (a key/value list of even length), `logWithFallback` returns
normally; if the severity is not allowed by the configured level nothing at all
changes; if it is allowed, exactly one record is handed to the go-kit logger of
the logger. For a logger without legacy levels that record starts with the bound
key/values followed by the pair `severity`, name of the severity; for a legacy
logger it starts with the pair `level`, go-kit level (debug, info, info, warn,
error, error for Debug to Critical). -/
theorem C9_logWithFallback_filter (rt : Runtime) (l : logger) (lvl : level) (depth : Nat)
    (params : List Value) (w : World) (hlvl : lvl ∈ allLevels)
    (heven : params.length % 2 = 0) :
    ∃ w', l.logWithFallback rt lvl depth params w = .ok w' ∧
      (l.isAllowed lvl = false → w' = w) ∧
      (l.isAllowed lvl = true →
        ∃ record, w'.written = w.written ++ [(l.gklogger.sink, record)] ∧
          (l.useLegacyLevels = false → ∃ rest, record =
            l.gklogger.keyvals ++ .str "severity" :: .str (level.String lvl) :: rest) ∧
          (l.useLegacyLevels = true → ∃ name rest, legacyLevelName lvl = some name ∧
            record = .str "level" :: .levelValue name :: rest)) := by
  obtain ⟨w', h, _, _, hno, hyes⟩ := logWithFallback_spec rt l lvl depth params w hlvl heven
  exact ⟨w', h, hno, hyes⟩

theorem C9_logWithFallback_filter_witness :
    levelWarn ∈ allLevels ∧ [Value.str "message", Value.str "hi"].length % 2 = 0 ∧
      ∃ w', (createLogger ⟨0, []⟩).logWithFallback sampleRt levelWarn 0
          [.str "message", .str "hi"] World.empty = .ok w' ∧
        ((createLogger ⟨0, []⟩).isAllowed levelWarn = false → w' = World.empty) ∧
        ((createLogger ⟨0, []⟩).isAllowed levelWarn = true →
          ∃ record, w'.written =
              World.empty.written ++ [((createLogger ⟨0, []⟩).gklogger.sink, record)] ∧
            ((createLogger ⟨0, []⟩).useLegacyLevels = false → ∃ rest, record =
              (createLogger ⟨0, []⟩).gklogger.keyvals ++
                .str "severity" :: .str (level.String levelWarn) :: rest) ∧
            ((createLogger ⟨0, []⟩).useLegacyLevels = true → ∃ name rest,
              legacyLevelName levelWarn = some name ∧
                record = .str "level" :: .levelValue name :: rest)) :=
  ⟨by decide, by decide,
    C9_logWithFallback_filter sampleRt (createLogger ⟨0, []⟩) levelWarn 0
      [.str "message", .str "hi"] World.empty (by decide) (by decide)⟩

/-- C9 as stated fails for a legacy logger: a Critical record that passes the
filter is handed to the go-kit logger with the go-kit level `error`, and the
name `critical` of its severity is nowhere in the record. -/
theorem C9_counterexample :
    (Legacy ⟨0, []⟩).isAllowed levelCritical = true ∧
      level.String levelCritical = "critical" ∧
      (Legacy ⟨0, []⟩).logWithFallback sampleRt levelCritical 0
          [.str "message", .str "x"] World.empty =
        .ok { written := [(0, [.str "level", .levelValue "error", .str "message", .str "x"])],
              increments := [], printed := [], exit := none } ∧
      Value.str "critical" ∉
        [Value.str "level", Value.levelValue "error", Value.str "message", Value.str "x"] ∧
      Value.levelValue "critical" ∉
        [Value.str "level", Value.levelValue "error", Value.str "message", Value.str "x"] := by
  refine ⟨by decide, by decide, rfl, by decide, by decide⟩

/-- The counter follows the severity of the call: a logger derived with
`WithErrorCounter` increments the counter exactly once in a call of `logFancy`
at Error or Critical severity and never in a call at another severity,
whatever the call logs; every such call returns normally. -/
theorem logFancy_counter_per_call (rt : Runtime) (l : logger) (metric : Nat)
    (depth : Nat) (lvl : level) (p : List Value) (w : World) (hlvl : lvl ∈ allLevels) :
    ∃ w', (l.WithErrorCounter (some metric)).logFancy rt depth lvl p w = .ok w' ∧
      w'.increments =
        w.increments ++ (if lvl = levelError ∨ lvl = levelCritical then [metric] else []) := by
  obtain ⟨w', h, hinc⟩ :=
    logFancy_increments rt (l.WithErrorCounter (some metric)) depth lvl p w hlvl
  refine ⟨w', h, ?_⟩
  rw [hinc]
  by_cases hc : lvl = levelError ∨ lvl = levelCritical
  · have hc' : lvl = levelCritical ∨ lvl = levelError := hc.symm
    simp [hc, hc', logger.incMetric, logger.WithErrorCounter]
  · have hc' : ¬ (lvl = levelCritical ∨ lvl = levelError) := fun h => hc h.symm
    simp [hc, hc']

/-- C10, at the failing input: a logger with the counter 7 attached by
`WithErrorCounter`, at the default level. `Debug(nil)` logs one record at
Critical severity ("error is nil") and the counter is not incremented; the
same holds for `Info` with a first argument that is neither a string nor an
error, and for `Warn("ctx", err)`, which logs a Critical record and a Warn
record. For comparison `Error("boom")` logs one Error record with one
increment. In the other direction, on the same logger set to let only
Critical through, `Error("boom")` logs nothing and increments the counter. -/
theorem C10_critical_record_not_counted :
    ((createLogger ⟨0, []⟩).WithErrorCounter (some 7)).Debug sampleRt [.nil] World.empty =
        .ok { written := [(0, [.str "severity", .str "critical", .str "message",
                .str "error is nil", .str "stacktrace",
                .stacktrace (some (.fundamental "error is nil" []))])],
              increments := [], printed := [], exit := none } ∧
      ((createLogger ⟨0, []⟩).WithErrorCounter (some 7)).Info sampleRt [.other 5] World.empty =
        .ok { written := [(0, [.str "severity", .str "critical", .str "message",
                .str "first parameter to logger needs to be a string or an error",
                .str "stacktrace",
                .stacktrace (some (.fundamental
                  "first parameter to logger needs to be a string or an error" []))])],
              increments := [], printed := [], exit := none } ∧
      (∃ w', ((createLogger ⟨0, []⟩).WithErrorCounter (some 7)).Warn sampleRt
            [.str "ctx", .error (.errorString "boom")] World.empty = .ok w' ∧
          w'.written.map (fun r => r.2.take 2) =
            [[.str "severity", .str "critical"], [.str "severity", .str "warn"]] ∧
          w'.increments = []) ∧
      (∃ w', ((createLogger ⟨0, []⟩).WithErrorCounter (some 7)).Error sampleRt
            [.str "boom"] World.empty = .ok w' ∧
          w'.written.map (fun r => r.2.take 4) =
            [[.str "severity", .str "error", .str "message", .str "boom"]] ∧
          w'.increments = [7]) ∧
      ((createLogger ⟨0, []⟩).WithErrorCounter (some 7)).SetLogLevel sampleRt "critical"
          World.empty =
        .ok ({ createLogger ⟨0, []⟩ with
                loglevel := allLevelsFrom levelCritical, errorCounter := some 7 },
             World.empty) ∧
      logger.Error sampleRt
          { createLogger ⟨0, []⟩ with
            loglevel := allLevelsFrom levelCritical, errorCounter := some 7 }
          [.str "boom"] World.empty =
        .ok { written := [], increments := [7], printed := [], exit := none } :=
  ⟨rfl, rfl, ⟨_, rfl, by decide, rfl⟩, ⟨_, rfl, by decide, rfl⟩, rfl, rfl⟩

/-! ### Derived loggers -/

/-- `SetLogLevel` always returns, and the only field it changes is `loglevel`. -/
theorem logger_SetLogLevel_ok (rt : Runtime) (l : logger) (level : String) (w : World) :
    ∃ w', l.SetLogLevel rt level w =
      .ok ({ l with loglevel := (allLoglevelsFromString rt level).1 }, w') := by
  unfold logger.SetLogLevel
  cases herr : (allLoglevelsFromString rt level).2 with
  | none => exact ⟨w, by simp [herr]⟩
  | some err =>
    obtain ⟨w', hw', _⟩ := logFancy_increments rt l 0 levelError [.error err] w (by decide)
    exact ⟨w', by simp [herr, logger.Error, hw']⟩

theorem Heap_SetLogLevel_ok (rt : Runtime) (h : Heap) (p : Nat) (l : logger) (level : String)
    (w : World) (hp : h[p]? = some l) :
    ∃ w', Heap.SetLogLevel rt h p level w =
      .ok (h.set p { l with loglevel := (allLoglevelsFromString rt level).1 }, w') := by
  obtain ⟨w', hw'⟩ := logger_SetLogLevel_ok rt l level w
  exact ⟨w', by simp [Heap.SetLogLevel, hp, hw']⟩

/-- C11: `With`, `WithPrefix` and `WithErrorCounter` never change the receiver.
Called on the logger A at address `a`, each returns a fresh address holding a
copy of A that differs from A only in the field the call sets (`gklogger`,
`prefix`, `errorCounter`); every logger that existed before, A included, is what
it was. Afterwards `SetLogLevel` on the derived logger B leaves A as it was, and
`SetLogLevel` on A leaves B as it was; each changes only the level of its own
logger. -/
theorem C11_derived_logger_leaves_receiver (rt : Runtime) (h : Heap) (a : Nat) (A : logger)
    (key : String) (value : Value) (pfx : String) (metric : Option Nat)
    (hA : h[a]? = some A) :
    (h.With a key value =
        .ok (h ++ [{ A with gklogger := logWith A.gklogger [.str key, value] }], h.length) ∧
      h.WithPrefix a pfx = .ok (h ++ [{ A with logPrefix := pfx }], h.length) ∧
      h.WithErrorCounter a metric = .ok (h ++ [{ A with errorCounter := metric }], h.length)) ∧
    ∀ B : logger,
      h.length ≠ a ∧ (h ++ [B])[a]? = some A ∧ (h ++ [B])[h.length]? = some B ∧
      (∀ c, c < h.length → (h ++ [B])[c]? = h[c]?) ∧
      ∀ (level : String) (w : World),
        (∃ h2 w2, Heap.SetLogLevel rt (h ++ [B]) h.length level w = .ok (h2, w2) ∧
          h2[a]? = some A ∧
          h2[h.length]? = some { B with loglevel := (allLoglevelsFromString rt level).1 }) ∧
        (∃ h2 w2, Heap.SetLogLevel rt (h ++ [B]) a level w = .ok (h2, w2) ∧
          h2[h.length]? = some B ∧
          h2[a]? = some { A with loglevel := (allLoglevelsFromString rt level).1 }) := by
  have ha : a < h.length := by
    by_contra hge
    rw [List.getElem?_eq_none (by omega)] at hA
    cases hA
  refine ⟨⟨?_, ?_, ?_⟩, fun B => ?_⟩
  · simp [Heap.With, Heap.derive, hA, logger.With]
  · simp [Heap.WithPrefix, Heap.derive, hA, logger.WithPrefix]
  · simp [Heap.WithErrorCounter, Heap.derive, hA, logger.WithErrorCounter]
  have hAB : (h ++ [B])[a]? = some A := by
    rw [List.getElem?_append_left ha]; exact hA
  have hBB : (h ++ [B])[h.length]? = some B := by simp
  refine ⟨by omega, hAB, hBB, fun c hc => List.getElem?_append_left hc, fun level w => ⟨?_, ?_⟩⟩
  · obtain ⟨w2, hw2⟩ := Heap_SetLogLevel_ok rt (h ++ [B]) h.length B level w hBB
    refine ⟨_, w2, hw2, ?_, ?_⟩
    · rw [List.getElem?_set_ne (by omega)]; exact hAB
    · simp
  · obtain ⟨w2, hw2⟩ := Heap_SetLogLevel_ok rt (h ++ [B]) a A level w hAB
    refine ⟨_, w2, hw2, ?_, ?_⟩
    · rw [List.getElem?_set_ne (by omega)]; exact hBB
    · rw [List.getElem?_set_self]
      simp; omega

theorem C11_derived_logger_leaves_receiver_witness :
    [createLogger ⟨0, []⟩][0]? = some (createLogger ⟨0, []⟩) ∧
      Heap.WithPrefix [createLogger ⟨0, []⟩] 0 "db" =
        .ok ([createLogger ⟨0, []⟩, { createLogger ⟨0, []⟩ with logPrefix := "db" }], 1) ∧
      ([createLogger ⟨0, []⟩] ++ [{ createLogger ⟨0, []⟩ with logPrefix := "db" }])[0]? =
        some (createLogger ⟨0, []⟩) :=
  ⟨rfl,
    (C11_derived_logger_leaves_receiver sampleRt [createLogger ⟨0, []⟩] 0
      (createLogger ⟨0, []⟩) "user" (.str "bob") "db" (some 7) rfl).1.2.1,
    ((C11_derived_logger_leaves_receiver sampleRt [createLogger ⟨0, []⟩] 0
      (createLogger ⟨0, []⟩) "user" (.str "bob") "db" (some 7) rfl).2
        { createLogger ⟨0, []⟩ with logPrefix := "db" }).2.1⟩

/-! ### Records of the logging calls -/

theorem scanParams_message (rt : Runtime) (pfx m : String) :
    scanParams rt pfx [.str "message", .str m] =
      .ok ([.str "message", .str (prefixedMessage pfx m)], false) := by
  by_cases h : pfx = "" <;> simp [scanParams, prefixedMessage, fmtSprint, h]

theorem scanParams_message_stacktrace (rt : Runtime) (pfx m : String) (st : Option GoError) :
    scanParams rt pfx [.str "message", .str m, .str "stacktrace", .stacktrace st] =
      .ok ([.str "message", .str (prefixedMessage pfx m), .str "stacktrace", .stacktrace st],
        false) := by
  by_cases h : pfx = "" <;> simp [scanParams, prefixedMessage, fmtSprint, h]

/-- The record `logWithFallback` hands over when the level passes the filter:
the go-kit logger for the level, applied to the key/values as the first loop
left them plus the source location. -/
theorem logWithFallback_written (rt : Runtime) (l : logger) (lvl : level) (depth : Nat)
    (params ps : List Value) (has : Bool) (w : World) (hlvl : lvl ∈ allLevels)
    (hallow : l.isAllowed lvl = true) (heven : params.length % 2 = 0)
    (hscan : scanParams rt l.logPrefix params = .ok (ps, has)) :
    ∃ lg w', l.levelLogger lvl = .ok lg ∧
      l.logWithFallback rt lvl depth params w = .ok w' ∧
      w'.written = w.written ++
        [(l.gklogger.sink, gkRecord lg (appendSourceLocation rt depth has ps))] ∧
      w'.increments = w.increments ∧ w'.exit = w.exit := by
  obtain ⟨ps0, has0, hps0, hlen⟩ := scanParams_ok rt l.logPrefix params heven
  rw [hscan] at hps0
  simp only [Except.ok.injEq, Prod.mk.injEq] at hps0
  obtain ⟨rfl, rfl⟩ := hps0
  obtain ⟨lg, hlg, hsink, _, _⟩ := levelLogger_spec l lvl hlvl
  have hps2 := appendSourceLocation_even rt depth has ps (by rw [hlen]; exact heven)
  obtain ⟨w', hw', hwritten, hinc, hexit⟩ :=
    logOrPrintln_spec rt lg lvl (appendSourceLocation rt depth has ps) w hps2
  refine ⟨lg, w', hlg, ?_, ?_, hinc, hexit⟩
  · simp only [logger.logWithFallback, hallow, hscan, hlg, Bool.not_true, Bool.false_eq_true,
      if_false]
    exact hw'
  · rw [hwritten, hsink]

/-- The world in which `logFancy` starts logging: the counter step changes
neither the records nor the exit status. -/
theorem incMetric_frame (l : logger) (lvl : level) (w : World) :
    (if lvl = levelCritical ∨ lvl = levelError then l.incMetric w else w).written = w.written ∧
      (if lvl = levelCritical ∨ lvl = levelError then l.incMetric w else w).exit = w.exit := by
  unfold logger.incMetric
  split_ifs <;> cases l.errorCounter <;> simp

/-- One plain message that passes the filter: exactly one record, without a
stacktrace field. -/
theorem logMessage_written (rt : Runtime) (l : logger) (lvl : level) (depth : Nat)
    (m : String) (w : World) (hlvl : lvl ∈ allLevels) (hallow : l.isAllowed lvl = true) :
    ∃ lg w', l.levelLogger lvl = .ok lg ∧
      l.logWithFallback rt lvl depth [.str "message", .str m] w = .ok w' ∧
      w'.written = w.written ++ [(l.gklogger.sink, gkRecord lg
        (appendSourceLocation rt depth false
          [.str "message", .str (prefixedMessage l.logPrefix m)]))] ∧
      w'.increments = w.increments ∧ w'.exit = w.exit :=
  logWithFallback_written rt l lvl depth _ _ false w hlvl hallow (by simp)
    (scanParams_message rt l.logPrefix m)

/-- One error that passes the filter: exactly one record, with the message of
the error and the stacktrace field. -/
theorem logError_written (rt : Runtime) (l : logger) (err : GoError) (lvl : level)
    (depth : Nat) (w : World) (hlvl : lvl ∈ allLevels) (hallow : l.isAllowed lvl = true) :
    ∃ lg w', l.levelLogger lvl = .ok lg ∧
      l.logError rt err lvl depth w = .ok w' ∧
      w'.written = w.written ++ [(l.gklogger.sink, gkRecord lg
        (appendSourceLocation rt (depth + 1) false
          [.str "message", .str (prefixedMessage l.logPrefix err.Error),
           .str "stacktrace", .stacktrace (getUnderlyingStacktrace err)]))] ∧
      w'.increments = w.increments ∧ w'.exit = w.exit :=
  logWithFallback_written rt l lvl (depth + 1) _ _ false w hlvl hallow (by simp)
    (scanParams_message_stacktrace rt l.logPrefix err.Error _)

theorem getUnderlyingStacktrace_errorsNew (rt : Runtime) (msg : String) :
    getUnderlyingStacktrace (errorsNew rt msg) = some (errorsNew rt msg) := rfl

theorem levelLogger_critical (l : logger) (lg : GKLogger)
    (h : l.levelLogger levelCritical = .ok lg) (hleg : l.useLegacyLevels = false) :
    lg = logWith l.gklogger [.str "severity", .str "critical"] := by
  simp only [logger.levelLogger, hleg, Bool.false_eq_true, if_false, Except.ok.injEq] at h
  rw [← h]
  rfl

/-- A first argument that is nil, or neither a string nor an error: `logFancy`
logs the one Critical record `logError` builds for the diagnostic. -/
theorem logFancy_malformed_written (rt : Runtime) (l : logger) (depth : Nat) (lvl : level)
    (v : Value) (rest : List Value) (w : World)
    (hcrit : l.isAllowed levelCritical = true)
    (hv : v = .nil ∨ ((∀ s, v ≠ .str s) ∧ ∀ e, v ≠ .error e)) :
    ∃ lg w', l.levelLogger levelCritical = .ok lg ∧
      (l.useLegacyLevels = false → lg = logWith l.gklogger [.str "severity", .str "critical"]) ∧
      l.logFancy rt depth lvl (v :: rest) w = .ok w' ∧
      w'.written = w.written ++ [(l.gklogger.sink, gkRecord lg
        (appendSourceLocation rt (depth + 2) false
          [.str "message",
           .str (prefixedMessage l.logPrefix
             (if v = .nil then "error is nil"
              else "first parameter to logger needs to be a string or an error")),
           .str "stacktrace",
           .stacktrace (some (errorsNew rt
             (if v = .nil then "error is nil"
              else "first parameter to logger needs to be a string or an error")))]))] := by
  obtain ⟨hw1, _⟩ := incMetric_frame l lvl w
  generalize hmsg : (if v = Value.nil then "error is nil"
    else "first parameter to logger needs to be a string or an error") = msg
  obtain ⟨lg, w', hlg, hw', hwritten, _, _⟩ := logError_written rt l (errorsNew rt msg)
    levelCritical (depth + 1)
    (if lvl = levelCritical ∨ lvl = levelError then l.incMetric w else w) levelCritical_mem hcrit
  refine ⟨lg, w', hlg, levelLogger_critical l lg hlg, ?_, ?_⟩
  · rw [← hw', ← hmsg]
    rcases hv with rfl | ⟨hs, he⟩
    · simp [logger.logFancy]
    · cases v with
      | nil => simp [logger.logFancy]
      | str s => exact absurd rfl (hs s)
      | error e => exact absurd rfl (he e)
      | sourceLocation loc => simp [logger.logFancy]
      | stacktrace st => simp [logger.logFancy]
      | levelValue name => simp [logger.logFancy]
      | other tag => simp [logger.logFancy]
  · rw [hwritten, hw1, getUnderlyingStacktrace_errorsNew]
    rfl

/-- The go-kit logger for Critical under `useLegacyLevels`: the level value
`error` goes before the bound pairs. -/
theorem levelLogger_critical_legacy (l : logger) (lg : GKLogger)
    (h : l.levelLogger levelCritical = .ok lg) (hleg : l.useLegacyLevels = true) :
    lg = logWithPrefix l.gklogger [.str "level", .levelValue "error"] := by
  have hname : legacyLevelName levelCritical = some "error" := by decide
  simp only [logger.levelLogger, hleg, if_true, hname, Except.ok.injEq] at h
  exact h.symm

/-- A first argument that is nil, or neither a string nor an error: `logFancy`
returns, logs the one Critical record of the diagnostic under the go-kit logger
for Critical, and does not exit. -/
theorem logFancy_malformed_record (rt : Runtime) (l : logger) (depth : Nat) (lvl : level)
    (v : Value) (rest : List Value) (w : World) (lg : GKLogger)
    (hcrit : l.isAllowed levelCritical = true)
    (hv : v = .nil ∨ ((∀ s, v ≠ .str s) ∧ ∀ e, v ≠ .error e))
    (hlg : l.levelLogger levelCritical = .ok lg) :
    ∃ w', l.logFancy rt depth lvl (v :: rest) w = .ok w' ∧
      w'.written = w.written ++ [(l.gklogger.sink, gkRecord lg
        (appendSourceLocation rt (depth + 2) false
          [.str "message",
           .str (prefixedMessage l.logPrefix
             (if v = .nil then "error is nil"
              else "first parameter to logger needs to be a string or an error")),
           .str "stacktrace",
           .stacktrace (some (errorsNew rt
             (if v = .nil then "error is nil"
              else "first parameter to logger needs to be a string or an error")))]))] ∧
      w'.exit = w.exit := by
  obtain ⟨lg', w', hlg', _, hw', hwritten⟩ :=
    logFancy_malformed_written rt l depth lvl v rest w hcrit hv
  have heq : lg' = lg := by
    rw [hlg] at hlg'
    exact (Except.ok.inj hlg').symm
  subst heq
  refine ⟨w', hw', hwritten, ?_⟩
  obtain ⟨_, hw1⟩ := incMetric_frame l lvl w
  generalize hmsg : (if v = Value.nil then "error is nil"
    else "first parameter to logger needs to be a string or an error") = msg at hwritten
  obtain ⟨_, w'', _, hw'', _, _, hexit⟩ := logError_written rt l (errorsNew rt msg)
    levelCritical (depth + 1)
    (if lvl = levelCritical ∨ lvl = levelError then l.incMetric w else w) levelCritical_mem hcrit
  have hsame : l.logFancy rt depth lvl (v :: rest) w = .ok w'' := by
    rw [← hw'', ← hmsg]
    rcases hv with rfl | ⟨hs, he⟩
    · simp [logger.logFancy]
    · cases v with
      | nil => simp [logger.logFancy]
      | str s => exact absurd rfl (hs s)
      | error e => exact absurd rfl (he e)
      | sourceLocation loc => simp [logger.logFancy]
      | stacktrace st => simp [logger.logFancy]
      | levelValue name => simp [logger.logFancy]
      | other tag => simp [logger.logFancy]
  rw [hw'] at hsame
  rw [Except.ok.inj hsame, hexit, hw1]

/-- C13: for every severity entry point, `Debug`, `Info`, `Notice`, `Warn`,
`Error` and, for Critical, `Fatal`: a logging call whose first argument is nil
returns normally and logs exactly one record, at Critical severity, with the
message "error is nil"; a call whose first argument is neither a string nor an
error returns normally and logs exactly one Critical record with the message
"first parameter to logger needs to be a string or an error". Nothing else is
logged, so nothing at the severity of the call. The record is the one
`logError` builds: the message (behind the prefix of the logger, if it has one)
and the stacktrace of the new error, under the go-kit logger for Critical,
which carries the pair `severity`, `critical`, or under `useLegacyLevels` the
go-kit level value `error`. `Debug` to `Error` return without exiting; `Fatal`
logs the same record and then exits with status 1. The same holds of
`logFancy` at every level and depth. The logger lets Critical through, as
every logger of this package does. -/
theorem C13_malformed_first_argument (rt : Runtime) (l : logger) (depth : Nat) (lvl : level)
    (v : Value) (rest : List Value) (w : World)
    (hcrit : l.isAllowed levelCritical = true)
    (hv : v = .nil ∨ ((∀ s, v ≠ .str s) ∧ ∀ e, v ≠ .error e)) :
    ∃ lg, l.levelLogger levelCritical = .ok lg ∧
      (l.useLegacyLevels = false → lg = logWith l.gklogger [.str "severity", .str "critical"]) ∧
      (l.useLegacyLevels = true →
        lg = logWithPrefix l.gklogger [.str "level", .levelValue "error"]) ∧
      (∀ entry ∈ [logger.Debug, logger.Info, logger.Notice, logger.Warn, logger.Error],
        ∃ w', entry rt l (v :: rest) w = .ok w' ∧
          w'.written = w.written ++ [(l.gklogger.sink, gkRecord lg
            (appendSourceLocation rt (0 + 2) false
              [.str "message",
               .str (prefixedMessage l.logPrefix
                 (if v = .nil then "error is nil"
                  else "first parameter to logger needs to be a string or an error")),
               .str "stacktrace",
               .stacktrace (some (errorsNew rt
                 (if v = .nil then "error is nil"
                  else "first parameter to logger needs to be a string or an error")))]))] ∧
          w'.exit = w.exit) ∧
      (∃ wf, l.Fatal rt (v :: rest) w = .ok wf ∧
        wf.written = w.written ++ [(l.gklogger.sink, gkRecord lg
          (appendSourceLocation rt (0 + 2) false
            [.str "message",
             .str (prefixedMessage l.logPrefix
               (if v = .nil then "error is nil"
                else "first parameter to logger needs to be a string or an error")),
             .str "stacktrace",
             .stacktrace (some (errorsNew rt
               (if v = .nil then "error is nil"
                else "first parameter to logger needs to be a string or an error")))]))] ∧
        wf.exit = some 1) ∧
      (∃ w', l.logFancy rt depth lvl (v :: rest) w = .ok w' ∧
        w'.written = w.written ++ [(l.gklogger.sink, gkRecord lg
          (appendSourceLocation rt (depth + 2) false
            [.str "message",
             .str (prefixedMessage l.logPrefix
               (if v = .nil then "error is nil"
                else "first parameter to logger needs to be a string or an error")),
             .str "stacktrace",
             .stacktrace (some (errorsNew rt
               (if v = .nil then "error is nil"
                else "first parameter to logger needs to be a string or an error")))]))] ∧
        w'.exit = w.exit) := by
  obtain ⟨lg, hlg, _⟩ := levelLogger_spec l levelCritical levelCritical_mem
  refine ⟨lg, hlg, levelLogger_critical l lg hlg, levelLogger_critical_legacy l lg hlg, ?_, ?_,
    logFancy_malformed_record rt l depth lvl v rest w lg hcrit hv hlg⟩
  · intro entry hentry
    simp only [List.mem_cons, List.mem_singleton, List.not_mem_nil, or_false] at hentry
    rcases hentry with rfl | rfl | rfl | rfl | rfl
    · exact logFancy_malformed_record rt l 0 levelDebug v rest w lg hcrit hv hlg
    · exact logFancy_malformed_record rt l 0 levelInfo v rest w lg hcrit hv hlg
    · exact logFancy_malformed_record rt l 0 levelNotice v rest w lg hcrit hv hlg
    · exact logFancy_malformed_record rt l 0 levelWarn v rest w lg hcrit hv hlg
    · exact logFancy_malformed_record rt l 0 levelError v rest w lg hcrit hv hlg
  · obtain ⟨w', hw', hwritten, _⟩ :=
      logFancy_malformed_record rt l 0 levelCritical v rest w lg hcrit hv hlg
    exact ⟨{ w' with exit := some 1 }, by simp [logger.Fatal, hw'], hwritten, rfl⟩

/-- Every level the package stores in a logger (`allLevelsFrom` of one of the
six levels) lets Critical through. -/
theorem isAllowed_critical_of_allLevelsFrom (l : logger) (T : level) (hT : T ∈ allLevels)
    (hl : l.loglevel = allLevelsFrom T) : l.isAllowed levelCritical = true := by
  have key : ∀ T ∈ allLevels, ((allLevelsFrom T &&& levelCritical) != 0) = true := by decide
  simpa [logger.isAllowed, hl] using key T hT

/-- C14, as the code has it: for every severity, a logging call whose first
argument is a string without '%' and whose only other argument is an error e
returns normally and logs, in this order, a Critical record with the message
"parameter order in the logger should be (error, string), not (string, error)"
and then, when the severity of the call passes the filter of the logger, a
record at that severity whose message is the string followed by ": " and the
message of e. When the severity of the call is filtered out, only the Critical
record is logged. -/
theorem C14_reversed_parameter_order (rt : Runtime) (l : logger) (depth : Nat) (lvl : level)
    (text : String) (e : GoError) (w : World) (hlvl : lvl ∈ allLevels)
    (hcrit : l.isAllowed levelCritical = true) (htext : stringsContains text "%" = false) :
    ∃ lgC lg w', l.levelLogger levelCritical = .ok lgC ∧ l.levelLogger lvl = .ok lg ∧
      l.logFancy rt depth lvl [.str text, .error e] w = .ok w' ∧
      w'.written = w.written ++
        [(l.gklogger.sink, gkRecord lgC (appendSourceLocation rt (depth + 2) false
          [.str "message",
           .str (prefixedMessage l.logPrefix
             "parameter order in the logger should be (error, string), not (string, error)"),
           .str "stacktrace",
           .stacktrace (some (errorsNew rt
             "parameter order in the logger should be (error, string), not (string, error)"))]))]
        ++ (if l.isAllowed lvl = true then
          [(l.gklogger.sink, gkRecord lg (appendSourceLocation rt (depth + 2) false
            [.str "message", .str (prefixedMessage l.logPrefix (text ++ ": " ++ e.Error)),
             .str "stacktrace",
             .stacktrace (getUnderlyingStacktrace (errorsWrap rt e text))]))]
          else []) := by
  obtain ⟨hw1, _⟩ := incMetric_frame l lvl w
  obtain ⟨lgC, w1, hlgC, hw1', hwritten1, _, _⟩ := logError_written rt l
    (errorsNew rt "parameter order in the logger should be (error, string), not (string, error)")
    levelCritical (depth + 1)
    (if lvl = levelCritical ∨ lvl = levelError then l.incMetric w else w) levelCritical_mem hcrit
  obtain ⟨lg, hlg, _⟩ := levelLogger_spec l lvl hlvl
  have hfancy : ∀ w', l.logError rt (errorsWrap rt e text) lvl (depth + 1) w1 = .ok w' →
      l.logFancy rt depth lvl [.str text, .error e] w = .ok w' := by
    intro w' h
    simp [logger.logFancy, htext, hw1', h]
  cases hallow : l.isAllowed lvl
  · obtain ⟨w', hw', _, _, hno, _⟩ :=
      logWithFallback_spec rt l lvl (depth + 1 + 1)
        [.str "message", .str (errorsWrap rt e text).Error, .str "stacktrace",
          .stacktrace (getUnderlyingStacktrace (errorsWrap rt e text))] w1 hlvl (by simp)
    have hw'eq := hno hallow
    subst hw'eq
    refine ⟨lgC, lg, w', hlgC, hlg, hfancy _ hw', ?_⟩
    rw [hwritten1, hw1, getUnderlyingStacktrace_errorsNew]
    simp [errorsNew, GoError.Error]
  · obtain ⟨lg', w', hlg', hw', hwritten, _, _⟩ :=
      logError_written rt l (errorsWrap rt e text) lvl (depth + 1) w1 hlvl hallow
    rw [hlg] at hlg'
    cases hlg'
    refine ⟨lgC, lg, w', hlgC, hlg, hfancy _ hw', ?_⟩
    rw [hwritten, hwritten1, hw1, getUnderlyingStacktrace_errorsNew]
    simp [errorsWrap, errorsNew, GoError.Error]

theorem logFancy_string (rt : Runtime) (l : logger) (depth : Nat) (lvl : level)
    (text : String) (params : List Value) (w : World)
    (hnot : ∀ e, params = [.error e] → stringsContains text "%" = true) :
    l.logFancy rt depth lvl (.str text :: params) w =
      if lvl = levelError ∨ lvl = levelCritical then
        l.logError rt (ErrWithStacktrace rt (errorsErrorf rt text params) (depth + 1)) lvl
          (depth + 1) (if lvl = levelCritical ∨ lvl = levelError then l.incMetric w else w)
      else
        l.logWithFallback rt lvl (depth + 1) [.str "message", .str (rt.sprintf text params)]
          (if lvl = levelCritical ∨ lvl = levelError then l.incMetric w else w) := by
  simp only [logger.logFancy]
  split
  · rename_i err heq
    exfalso
    split at heq
    · rename_i err'
      simp [hnot err' rfl] at heq
    · cases heq
  · rfl

/-- C15: for a logging call whose first argument is a string (the call is not
the reversed (string, error) case) and whose severity passes the filter, the
logged record is the only one and carries the formatted text
`fmt.Sprintf(text, params...)` as message; at Error or Critical severity it also
carries a stacktrace field (the stack of the error made from the text), at Debug,
Info, Notice or Warn the call adds no stacktrace field. -/
theorem C15_string_first_argument (rt : Runtime) (l : logger) (depth : Nat) (lvl : level)
    (text : String) (params : List Value) (w : World) (hlvl : lvl ∈ allLevels)
    (hallow : l.isAllowed lvl = true)
    (hnot : ∀ e, params = [.error e] → stringsContains text "%" = true) :
    ∃ lg w', l.levelLogger lvl = .ok lg ∧
      l.logFancy rt depth lvl (.str text :: params) w = .ok w' ∧
      w'.written = w.written ++ [(l.gklogger.sink, gkRecord lg
        (if lvl = levelError ∨ lvl = levelCritical then
          appendSourceLocation rt (depth + 2) false
            [.str "message", .str (prefixedMessage l.logPrefix (rt.sprintf text params)),
             .str "stacktrace", .stacktrace (some (errorsErrorf rt text params))]
         else
          appendSourceLocation rt (depth + 1) false
            [.str "message", .str (prefixedMessage l.logPrefix (rt.sprintf text params))]))] := by
  obtain ⟨hw1, _⟩ := incMetric_frame l lvl w
  rw [logFancy_string rt l depth lvl text params w hnot]
  by_cases hsev : lvl = levelError ∨ lvl = levelCritical
  · obtain ⟨lg, w', hlg, hw', hwritten, _, _⟩ := logError_written rt l
      (ErrWithStacktrace rt (errorsErrorf rt text params) (depth + 1)) lvl (depth + 1)
      (if lvl = levelCritical ∨ lvl = levelError then l.incMetric w else w) hlvl hallow
    refine ⟨lg, w', hlg, by simpa [hsev] using hw', ?_⟩
    rw [hwritten, hw1]
    simp [hsev, ErrWithStacktrace, errorsErrorf, GoError.Error, getUnderlyingStacktrace,
      getUnderlyingStacktraceFrom]
  · obtain ⟨lg, w', hlg, hw', hwritten, _, _⟩ := logMessage_written rt l lvl (depth + 1)
      (rt.sprintf text params)
      (if lvl = levelCritical ∨ lvl = levelError then l.incMetric w else w) hlvl hallow
    refine ⟨lg, w', hlg, by simpa [hsev] using hw', ?_⟩
    rw [hwritten, hw1]
    simp [hsev]

theorem C13_malformed_first_argument_witness :
    (createLogger ⟨0, []⟩).isAllowed levelCritical = true ∧
      (Value.nil = .nil ∨ ((∀ s, Value.nil ≠ .str s) ∧ ∀ e, Value.nil ≠ .error e)) ∧
      (∃ lg, (createLogger ⟨0, []⟩).levelLogger levelCritical = .ok lg ∧
        ((createLogger ⟨0, []⟩).useLegacyLevels = false →
          lg = logWith (createLogger ⟨0, []⟩).gklogger [.str "severity", .str "critical"])) ∧
      (createLogger ⟨0, []⟩).Info sampleRt [.nil] World.empty =
        .ok { written := [(0, [.str "severity", .str "critical", .str "message",
                .str "error is nil", .str "stacktrace",
                .stacktrace (some (.fundamental "error is nil" []))])],
              increments := [], printed := [], exit := none } ∧
      (createLogger ⟨0, []⟩).Fatal sampleRt [.other 5] World.empty =
        .ok { written := [(0, [.str "severity", .str "critical", .str "message",
                .str "first parameter to logger needs to be a string or an error",
                .str "stacktrace",
                .stacktrace (some (.fundamental
                  "first parameter to logger needs to be a string or an error" []))])],
              increments := [], printed := [], exit := some 1 } ∧
      (Legacy ⟨0, []⟩).Debug sampleRt [.nil] World.empty =
        .ok { written := [(0, [.str "level", .levelValue "error", .str "message",
                .str "error is nil", .str "stacktrace",
                .stacktrace (some (.fundamental "error is nil" []))])],
              increments := [], printed := [], exit := none } :=
  ⟨by decide, Or.inl rfl,
    (C13_malformed_first_argument sampleRt (createLogger ⟨0, []⟩) 0 levelInfo .nil []
      World.empty (by decide) (Or.inl rfl)).imp (fun _ h => ⟨h.1, h.2.1⟩),
    rfl, rfl, rfl⟩

theorem C14_reversed_parameter_order_witness :
    levelWarn ∈ allLevels ∧ (createLogger ⟨0, []⟩).isAllowed levelCritical = true ∧
      stringsContains "ctx" "%" = false ∧
      ∃ lgC lg w', (createLogger ⟨0, []⟩).levelLogger levelCritical = .ok lgC ∧
        (createLogger ⟨0, []⟩).levelLogger levelWarn = .ok lg ∧
        (createLogger ⟨0, []⟩).logFancy sampleRt 0 levelWarn
            [.str "ctx", .error (.errorString "boom")] World.empty = .ok w' ∧
        w'.written = World.empty.written ++
          [((createLogger ⟨0, []⟩).gklogger.sink,
            gkRecord lgC (appendSourceLocation sampleRt (0 + 2) false
              [.str "message",
               .str (prefixedMessage (createLogger ⟨0, []⟩).logPrefix
                 "parameter order in the logger should be (error, string), not (string, error)"),
               .str "stacktrace",
               .stacktrace (some (errorsNew sampleRt
                 "parameter order in the logger should be (error, string), not (string, error)"))]))]
          ++ (if (createLogger ⟨0, []⟩).isAllowed levelWarn = true then
            [((createLogger ⟨0, []⟩).gklogger.sink,
              gkRecord lg (appendSourceLocation sampleRt (0 + 2) false
                [.str "message",
                 .str (prefixedMessage (createLogger ⟨0, []⟩).logPrefix
                   ("ctx" ++ ": " ++ (GoError.errorString "boom").Error)),
                 .str "stacktrace",
                 .stacktrace (getUnderlyingStacktrace
                   (errorsWrap sampleRt (.errorString "boom") "ctx"))]))]
            else []) :=
  ⟨by decide, by decide, by decide,
    C14_reversed_parameter_order sampleRt (createLogger ⟨0, []⟩) 0 levelWarn "ctx"
      (.errorString "boom") World.empty (by decide) (by decide) (by decide)⟩

/-- C14 as stated fails when the severity of the call is filtered out: on a
logger at its default level, `Debug("ctx", err)` logs the Critical record about
the parameter order and no second record. -/
theorem C14_counterexample :
    stringsContains "ctx" "%" = false ∧
      (createLogger ⟨0, []⟩).Debug sampleRt [.str "ctx", .error (.errorString "boom")]
          World.empty =
        .ok { written := [(0, [.str "severity", .str "critical", .str "message",
                .str "parameter order in the logger should be (error, string), not (string, error)",
                .str "stacktrace",
                .stacktrace (some (.fundamental
                  "parameter order in the logger should be (error, string), not (string, error)"
                  []))])],
              increments := [], printed := [], exit := none } :=
  ⟨by decide, rfl⟩

theorem C15_string_first_argument_witness :
    levelError ∈ allLevels ∧ (createLogger ⟨0, []⟩).isAllowed levelError = true ∧
      ∃ lg w', (createLogger ⟨0, []⟩).levelLogger levelError = .ok lg ∧
        (createLogger ⟨0, []⟩).logFancy sampleRt 0 levelError (.str "disk full" :: [])
            World.empty = .ok w' ∧
        w'.written = World.empty.written ++ [((createLogger ⟨0, []⟩).gklogger.sink, gkRecord lg
          (if levelError = levelError ∨ levelError = levelCritical then
            appendSourceLocation sampleRt (0 + 2) false
              [.str "message",
               .str (prefixedMessage (createLogger ⟨0, []⟩).logPrefix
                 (sampleRt.sprintf "disk full" [])),
               .str "stacktrace", .stacktrace (some (errorsErrorf sampleRt "disk full" []))]
           else
            appendSourceLocation sampleRt (0 + 1) false
              [.str "message",
               .str (prefixedMessage (createLogger ⟨0, []⟩).logPrefix
                 (sampleRt.sprintf "disk full" []))]))] :=
  ⟨by decide, by decide,
    C15_string_first_argument sampleRt (createLogger ⟨0, []⟩) 0 levelError "disk full" []
      World.empty (by decide) (by decide) (fun e h => by cases h)⟩

/-- The loop of `getUnderlyingStacktrace` returns the last `stackTracer` of the
cause chain, and what it had seen before when the chain has none. -/
theorem getUnderlyingStacktraceFrom_eq (err : GoError) :
    ∀ stErr : Option GoError, getUnderlyingStacktraceFrom stErr err =
      ((err.chain.filter (fun e => e.StackTrace.isSome)).getLast?).or stErr := by
  induction err with
  | errorString msg =>
    intro stErr
    simp [getUnderlyingStacktraceFrom, GoError.chain, GoError.StackTrace]
  | fundamental msg stack =>
    intro stErr
    simp [getUnderlyingStacktraceFrom, GoError.chain, GoError.StackTrace]
  | withMessage cause msg ih =>
    intro stErr
    simp [getUnderlyingStacktraceFrom, GoError.chain, GoError.StackTrace, ih]
  | withStack cause stack ih =>
    intro stErr
    simp only [getUnderlyingStacktraceFrom, GoError.chain, ih]
    rw [List.filter_cons_of_pos (by simp [GoError.StackTrace]), List.getLast?_cons]
    cases (List.filter (fun e => e.StackTrace.isSome) cause.chain).getLast? <;> simp
  | errWithStacktrace cause stack ih =>
    intro stErr
    simp only [getUnderlyingStacktraceFrom, GoError.chain, ih]
    rw [List.filter_cons_of_pos (by simp [GoError.StackTrace]), List.getLast?_cons]
    cases (List.filter (fun e => e.StackTrace.isSome) cause.chain).getLast? <;> simp

theorem getUnderlyingStacktrace_eq (err : GoError) :
    getUnderlyingStacktrace err =
      (err.chain.filter (fun e => e.StackTrace.isSome)).getLast? := by
  rw [getUnderlyingStacktrace, getUnderlyingStacktraceFrom_eq]
  simp

/-- C17: wrapping keeps the capture point. When the error handed to `logFancy`
already is a `stackTracer`, `logFancy` does not wrap it in `ErrWithStacktrace`
again: it logs the error itself, or, with a text, `errors.Wrap` of it.
`getUnderlyingStacktrace` returns the last `stackTracer` along the cause chain,
that is the innermost one; so when an error that has a stack somewhere in its
chain is wrapped again (by `ErrWithStacktrace`, once or twice, or by
`errors.Wrap`), the result is still the same innermost error, with the same
frames; and for an error with no stack anywhere in its cause chain the result
is nil. -/
theorem C17_stacktrace_wrapping (rt : Runtime) (l : logger) (depth d : Nat) (lvl : level)
    (err : GoError) (str text : String) (rest : List Value) (w : World) :
    (err.StackTrace.isSome = true →
      l.logFancy rt depth lvl [.error err] w =
        l.logError rt err lvl (depth + 1)
          (if lvl = levelCritical ∨ lvl = levelError then l.incMetric w else w) ∧
      l.logFancy rt depth lvl (.error err :: .str str :: rest) w =
        l.logError rt (errorsWrap rt err (rt.sprintf str rest)) lvl (depth + 1)
          (if lvl = levelCritical ∨ lvl = levelError then l.incMetric w else w)) ∧
    getUnderlyingStacktrace err =
      (err.chain.filter (fun e => e.StackTrace.isSome)).getLast? ∧
    (∀ st, getUnderlyingStacktrace err = some st →
      getUnderlyingStacktrace (ErrWithStacktrace rt err d) = some st ∧
      getUnderlyingStacktrace (errorsWrap rt err text) = some st ∧
      getUnderlyingStacktrace (ErrWithStacktrace rt (ErrWithStacktrace rt err d) d) = some st) ∧
    ((∀ e ∈ err.chain, e.StackTrace = none) → getUnderlyingStacktrace err = none) := by
  refine ⟨fun hst => ⟨?_, ?_⟩, getUnderlyingStacktrace_eq err, fun st hsome => ?_, fun hnone => ?_⟩
  · simp [logger.logFancy, hst]
  · simp [logger.logFancy, hst]
  · have h1 : getUnderlyingStacktraceFrom none err = some st := hsome
    have hfrom : ∀ acc, getUnderlyingStacktraceFrom acc err = some st := by
      intro acc
      rw [getUnderlyingStacktraceFrom_eq] at h1 ⊢
      cases hl : (List.filter (fun e => e.StackTrace.isSome) err.chain).getLast? with
      | none => simp [hl] at h1
      | some x => simpa [hl] using h1
    refine ⟨?_, ?_, ?_⟩
    · simp [getUnderlyingStacktrace, ErrWithStacktrace, getUnderlyingStacktraceFrom, hfrom]
    · simp [getUnderlyingStacktrace, errorsWrap, getUnderlyingStacktraceFrom, hfrom]
    · simp [getUnderlyingStacktrace, ErrWithStacktrace, getUnderlyingStacktraceFrom, hfrom]
  · rw [getUnderlyingStacktrace_eq, List.getLast?_eq_none_iff, List.filter_eq_nil_iff]
    intro e he
    simp [hnone e he]

theorem C17_stacktrace_wrapping_witness :
    (GoError.fundamental "x" [1, 2, 3]).StackTrace.isSome = true ∧
      getUnderlyingStacktrace (.fundamental "x" [1, 2, 3]) =
        some (.fundamental "x" [1, 2, 3]) ∧
      (getUnderlyingStacktrace (ErrWithStacktrace sampleRt (.fundamental "x" [1, 2, 3]) 0) =
          some (.fundamental "x" [1, 2, 3]) ∧
        getUnderlyingStacktrace (errorsWrap sampleRt (.fundamental "x" [1, 2, 3]) "ctx") =
          some (.fundamental "x" [1, 2, 3]) ∧
        getUnderlyingStacktrace
            (ErrWithStacktrace sampleRt
              (ErrWithStacktrace sampleRt (.fundamental "x" [1, 2, 3]) 0) 0) =
          some (.fundamental "x" [1, 2, 3])) ∧
      (∀ e ∈ (GoError.errorString "y").chain, e.StackTrace = none) ∧
      getUnderlyingStacktrace (.errorString "y") = none :=
  ⟨rfl, rfl,
    (C17_stacktrace_wrapping sampleRt (createLogger ⟨0, []⟩) 0 0 levelError
      (.fundamental "x" [1, 2, 3]) "" "ctx" [] World.empty).2.2.1 _ rfl,
    by decide,
    (C17_stacktrace_wrapping sampleRt (createLogger ⟨0, []⟩) 0 0 levelError
      (.errorString "y") "" "ctx" [] World.empty).2.2.2 (by decide)⟩

/-! ### Lifecycle coordinator -/

theorem WithHTTP_foldl (srv : List (Option Nat)) :
    ∀ h : Server,
      srv.foldl
        (fun h s =>
          match s with
          | none => h
          | some s => { h with srv := h.srv ++ [s] })
        h = { h with srv := h.srv ++ srv.filterMap id } := by
  induction srv with
  | nil => intro h; simp
  | cons s rest ih =>
    intro h
    cases s with
    | none => simpa using ih h
    | some s =>
      simp only [List.foldl_cons, ih, List.filterMap_cons, id]
      simp

/-- C19: `Start` takes its guard and returns the already-started error exactly
when the coordinator was already started: then it returns that error and
changes nothing; when the coordinator was not started it returns what the
startup race yields (the first listener error in the window, or nil), so, unless
a listener itself reports an error with that very text, the result is the
already-started error if and only if the coordinator was started before the
call. After any call to `Start` the coordinator is started, a second `Start`
fails with the already-started error whatever the first one returned, and
`WithHTTP`, `WithGRPC`, `Start` and `Stop` never take a started coordinator
back to not-started. -/
theorem C19_start_once (h : Server) (first second : Option GoError)
    (srv : List (Option Nat)) (g : Option Nat) (lis : String) (tlsCfg : Option Nat)
    (shutdown : Nat → Option GoError) (order : List Nat) :
    (h.started = true → h.Start first = (h, some (.errorString "already started"))) ∧
    (h.started = false → (h.Start first).2 = first) ∧
    (first ≠ some (.errorString "already started") →
      ((h.Start first).2 = some (.errorString "already started") ↔ h.started = true)) ∧
    (h.Start first).1.started = true ∧
    ((h.Start first).1.Start second).2 = some (.errorString "already started") ∧
    (h.started = true →
      (h.WithHTTP srv).started = true ∧ (h.WithGRPC g lis tlsCfg).started = true ∧
      (h.Start first).1.started = true ∧
      ∀ r, h.Stop shutdown order = .ok r → r.1.started = true) := by
  have hafter : (h.Start first).1.started = true := by
    unfold Server.Start
    cases hs : h.started
    · simp only [Bool.false_eq_true, if_false]
      split_ifs <;> rfl
    · simp [hs]
  have hagain : ∀ (k : Server) (x : Option GoError), k.started = true →
      k.Start x = (k, some (.errorString "already started")) := by
    intro k x hk
    simp [Server.Start, hk]
  refine ⟨hagain h first, ?_, ?_, hafter, ?_, ?_⟩
  · intro hs
    simp [Server.Start, hs]
  · intro hne
    cases hs : h.started
    · simp [Server.Start, hs, hne]
    · simp [Server.Start, hs]
  · rw [hagain _ second hafter]
  · intro hs
    refine ⟨by simp [Server.WithHTTP, hs], by simp [Server.WithGRPC, hs], hafter, ?_⟩
    intro r hr
    unfold Server.Stop at hr
    split_ifs at hr
    cases hr
    exact hs

theorem C19_start_once_witness :
    New.started = false ∧
      (some (GoError.errorString "bind: address already in use") ≠
        some (.errorString "already started")) ∧
      (New.Start (some (.errorString "bind: address already in use"))).2 =
        some (.errorString "bind: address already in use") ∧
      ((New.Start (some (.errorString "bind: address already in use"))).2 =
          some (.errorString "already started") ↔ New.started = true) ∧
      (New.Start (some (.errorString "bind: address already in use"))).1.started = true ∧
      ((New.Start (some (.errorString "bind: address already in use"))).1.Start none).2 =
        some (.errorString "already started") :=
  ⟨rfl, by decide,
    (C19_start_once New (some (.errorString "bind: address already in use")) none [] none ""
      none (fun _ => none) []).2.1 rfl,
    (C19_start_once New (some (.errorString "bind: address already in use")) none [] none ""
      none (fun _ => none) []).2.2.1 (by decide),
    (C19_start_once New (some (.errorString "bind: address already in use")) none [] none ""
      none (fun _ => none) []).2.2.2.1,
    (C19_start_once New (some (.errorString "bind: address already in use")) none [] none ""
      none (fun _ => none) []).2.2.2.2.1⟩

/-- C20: once the coordinator is started, `WithHTTP` and `WithGRPC` are no-ops:
for every argument list they return the coordinator with every field
unchanged. Before start `WithHTTP` appends exactly the non-nil servers given,
in order, and `WithGRPC` appends the server given when it is not nil; nothing
else changes. -/
theorem C20_register_before_start (h : Server) (srv : List (Option Nat)) (s : Nat)
    (lis : String) (tlsCfg : Option Nat) :
    (h.started = true →
      h.WithHTTP srv = h ∧ h.WithGRPC (some s) lis tlsCfg = h ∧ h.WithGRPC none lis tlsCfg = h) ∧
    (h.started = false →
      h.WithHTTP srv = { h with srv := h.srv ++ srv.filterMap id } ∧
      h.WithGRPC (some s) lis tlsCfg =
        { h with gsrv := h.gsrv ++ [{ srv := s, lis := lis, tls := tlsCfg }] } ∧
      h.WithGRPC none lis tlsCfg = h) := by
  constructor
  · intro hs
    simp [Server.WithHTTP, Server.WithGRPC, hs]
  · intro hs
    refine ⟨?_, by simp [Server.WithGRPC, hs], by simp [Server.WithGRPC, hs]⟩
    unfold Server.WithHTTP
    rw [if_neg (by simp [hs])]
    exact WithHTTP_foldl srv h

theorem C20_register_before_start_witness :
    New.started = false ∧
      New.WithHTTP [some 11, none, some 12] = { New with srv := [11, 12] } ∧
      (New.Start none).1.started = true ∧
      (New.Start none).1.WithHTTP [some 11, none, some 12] = (New.Start none).1 :=
  ⟨rfl,
    ((C20_register_before_start New [some 11, none, some 12] 21 ":9090" none).2 rfl).1,
    rfl,
    ((C20_register_before_start (New.Start none).1 [some 11, none, some 12] 21 ":9090"
      none).1 rfl).1⟩

/-! ### Template formatter -/

theorem formatScan_st (rt : Runtime) :
    ∀ (keyvals : List Value) (s : formatState),
      (formatScan rt keyvals s).st = some none →
        s.st = some none ∨ Value.stacktrace none ∈ keyvals
  | [], s => fun h => Or.inl (by simpa [formatScan] using h)
  | [_], s => fun h => Or.inl (by simpa [formatScan] using h)
  | k :: v :: rest, s => by
      intro h
      rw [formatScan] at h
      rcases formatScan_st rt rest _ h with h1 | h1
      · simp only [formatPair] at h1
        split_ifs at h1 with c1 c2
        · exact Or.inl h1
        · cases v <;> first
            | exact Or.inl h1
            | (simp only [Option.some.injEq] at h1
               subst h1
               exact Or.inr (by simp))
        · exact Or.inl h1
      · exact Or.inr (by simp [h1])

/-- C23, as the code has it: for every level L among the six severities,
`allLevelsFrom(L)` is cut only to the eight bits of the byte: it is the bitwise
OR of L, the more severe level bits and the two bits 64 and 128 above the six
level bits; on the six level bits it is exactly L and the more severe levels. -/
theorem C23_allLevelsFrom_bits (L : level) (hL : L ∈ allLevels) :
    allLevelsFrom L =
        ((allLevels.filter (fun C => decide (L ≤ C))).foldl (fun a b => a ||| b) 0) ||| 192 ∧
      allLevelsFrom L &&& 63 =
        (allLevels.filter (fun C => decide (L ≤ C))).foldl (fun a b => a ||| b) 0 ∧
      allLevelsFrom L &&& 192 = 192 ∧ allLevelsFrom L < 256 := by
  have key : ∀ L ∈ allLevels,
      allLevelsFrom L =
          ((allLevels.filter (fun C => decide (L ≤ C))).foldl (fun a b => a ||| b) 0) ||| 192 ∧
        allLevelsFrom L &&& 63 =
          (allLevels.filter (fun C => decide (L ≤ C))).foldl (fun a b => a ||| b) 0 ∧
        allLevelsFrom L &&& 192 = 192 ∧ allLevelsFrom L < 256 := by decide
  exact key L hL

theorem C23_allLevelsFrom_bits_witness :
    allLevelsFrom levelError =
        ((allLevels.filter (fun C => decide (levelError ≤ C))).foldl (fun a b => a ||| b) 0)
          ||| 192 ∧
      allLevelsFrom levelError &&& 63 =
        (allLevels.filter (fun C => decide (levelError ≤ C))).foldl (fun a b => a ||| b) 0 ∧
      allLevelsFrom levelError &&& 192 = 192 ∧ allLevelsFrom levelError < 256 :=
  C23_allLevelsFrom_bits levelError (by decide)

/-- C23 as stated fails: `allLevelsFrom(Error)` is 240, which is not the OR of
the Error and Critical bits (48) and has the bits 64 and 128 set, outside the
six level bits (the mask 63). -/
theorem C23_counterexample :
    allLevelsFrom levelError = 240 ∧
      ¬ (allLevelsFrom levelError = levelError ||| levelCritical ∧
        allLevelsFrom levelError &&& (255 ^^^ 63) = 0) := by
  decide

theorem checkDeps_foldl (deps : List StatusProvider) :
    ∀ s : StatusResponses,
      deps.foldl
        (fun s dep =>
          let status : StatusResponse := { Name := dep.name, Healthy := true, Error := "" }
          match dep.status with
          | some err =>
              { Deps := s.Deps ++ [{ status with Healthy := false, Error := err.Error }],
                AllHealthy := false }
          | none => { s with Deps := s.Deps ++ [status] })
        s =
      { Deps := s.Deps ++ deps.map (fun dep =>
          { Name := dep.name, Healthy := dep.status.isNone,
            Error := (dep.status.map GoError.Error).getD "" }),
        AllHealthy := s.AllHealthy && deps.all (fun dep => dep.status.isNone) } := by
  induction deps with
  | nil => intro s; simp
  | cons dep deps ih =>
    intro s
    cases hst : dep.status with
    | none => simp [List.foldl_cons, ih, hst]
    | some err => simp [List.foldl_cons, ih, hst]

/-- C22: for every list of registered dependencies, `checkDeps` returns exactly
one entry per dependency, in registration order, whose name is what `String()`
of the dependency returns, whose healthy flag is true exactly when `Status`
returned no error, and whose error text is the message of that error, empty
when healthy; `all_healthy` is true exactly when every entry is healthy, so it
is true for an empty registry; `Register` adds the dependency at the end. -/
theorem C22_checkDeps (h : StatusHandler) (dep : StatusProvider) :
    (h.checkDeps).Deps = h.deps.map (fun dep =>
        { Name := dep.name, Healthy := dep.status.isNone,
          Error := (dep.status.map GoError.Error).getD "" }) ∧
      ((h.checkDeps).AllHealthy = true ↔ ∀ e ∈ (h.checkDeps).Deps, e.Healthy = true) ∧
      (h.deps = [] → h.checkDeps = { Deps := [], AllHealthy := true }) ∧
      (h.Register dep).deps = h.deps ++ [dep] := by
  have hfold : h.checkDeps =
      { Deps := h.deps.map (fun dep =>
          { Name := dep.name, Healthy := dep.status.isNone,
            Error := (dep.status.map GoError.Error).getD "" }),
        AllHealthy := h.deps.all (fun dep => dep.status.isNone) } := by
    simpa [StatusHandler.checkDeps] using checkDeps_foldl h.deps ⟨[], true⟩
  refine ⟨by rw [hfold], ?_, ?_, rfl⟩
  · rw [hfold]
    simp
  · intro hnil
    rw [hfold, hnil]
    rfl

theorem C22_checkDeps_witness :
    (StatusHandler.checkDeps ⟨[⟨"db", none⟩,
        ⟨"calculator", some (.errorString "connection not 'Ready': 3")⟩]⟩) =
      { Deps := [⟨"db", true, ""⟩, ⟨"calculator", false, "connection not 'Ready': 3"⟩],
        AllHealthy := false } ∧
      (StatusHandler.mk []).deps = [] ∧
      StatusHandler.checkDeps ⟨[]⟩ = { Deps := [], AllHealthy := true } :=
  ⟨by decide, rfl, (C22_checkDeps ⟨[]⟩ ⟨"db", none⟩).2.2.1 rfl⟩

/-- C24: after `Start` has set up the error channel, the capacity of the
channel is at least the number of registered HTTP plus gRPC listeners, which
`Start` leaves as they were; each listener task sends exactly one value, so none
of the sends blocks even when nobody reads the channel any more. The capacity
stays sufficient afterwards, since `WithHTTP` and `WithGRPC` register nothing
once started and a second `Start` changes nothing. -/
theorem C24_error_channel_capacity (h : Server) (first second : Option GoError)
    (srv : List (Option Nat)) (g : Option Nat) (lis : String) (tlsCfg : Option Nat)
    (hs : h.started = false) :
    (h.Start first).1.srv = h.srv ∧ (h.Start first).1.gsrv = h.gsrv ∧
      (h.Start first).1.listenerTasks ≤ (h.Start first).1.errCap ∧
      blockedSenders (h.Start first).1.errCap (h.Start first).1.listenerTasks = 0 ∧
      ((h.Start first).1.WithHTTP srv).listenerTasks ≤ ((h.Start first).1.WithHTTP srv).errCap ∧
      ((h.Start first).1.WithGRPC g lis tlsCfg).listenerTasks ≤
        ((h.Start first).1.WithGRPC g lis tlsCfg).errCap ∧
      (((h.Start first).1.Start second).1).listenerTasks ≤
        (((h.Start first).1.Start second).1).errCap := by
  have hstart : (h.Start first).1.srv = h.srv ∧ (h.Start first).1.gsrv = h.gsrv ∧
      (h.Start first).1.listenerTasks ≤ (h.Start first).1.errCap ∧
      (h.Start first).1.started = true := by
    unfold Server.Start Server.listenerTasks
    simp only [hs, Bool.false_eq_true, if_false]
    split_ifs <;> simp <;> omega
  obtain ⟨h1, h2, h3, h4⟩ := hstart
  refine ⟨h1, h2, h3, ?_, ?_, ?_, ?_⟩
  · unfold blockedSenders
    omega
  all_goals
    generalize (h.Start first).1 = k at h3 h4
  · have hk : k.WithHTTP srv = k := by simp [Server.WithHTTP, h4]
    rw [hk]
    exact h3
  · have hk : k.WithGRPC g lis tlsCfg = k := by simp [Server.WithGRPC, h4]
    rw [hk]
    exact h3
  · have hk : (k.Start second).1 = k := by simp [Server.Start, h4]
    rw [hk]
    exact h3

theorem C24_error_channel_capacity_witness :
    ((New.WithHTTP [some 11, some 12]).WithGRPC (some 21) ":9090" none).started = false ∧
      (((New.WithHTTP [some 11, some 12]).WithGRPC (some 21) ":9090" none).Start none).1.errCap
        = 3 ∧
      (((New.WithHTTP [some 11, some 12]).WithGRPC (some 21) ":9090" none).Start
          none).1.listenerTasks ≤
        (((New.WithHTTP [some 11, some 12]).WithGRPC (some 21) ":9090" none).Start
          none).1.errCap :=
  ⟨rfl, rfl,
    (C24_error_channel_capacity ((New.WithHTTP [some 11, some 12]).WithGRPC (some 21) ":9090" none)
      none none [] none "" none rfl).2.2.1⟩

/-- C21, at the failing input: a coordinator with one gRPC server and the
timeout of two seconds of `New`, started, whose gRPC server needs ten seconds
to finish what is in flight. `Stop` hands the one `GracefulStop` task to the
group and returns after ten seconds, not within the timeout; no shutdown error
is returned. With an HTTP server that needs ten seconds the same coordinator
stops within the two seconds. -/
theorem C21_grpc_stop_not_bounded :
    ((New.WithGRPC (some 1) ":9090" none).Start none).1.timeout = 2000000000 ∧
      ((New.WithGRPC (some 1) ":9090" none).Start none).1.stopTasks =
        [.grpc ⟨1, ":9090", none⟩] ∧
      ((New.WithGRPC (some 1) ":9090" none).Start none).1.stopTime
          ⟨fun _ => 0, fun _ => 10000000000⟩ = 10000000000 ∧
      ¬ (((New.WithGRPC (some 1) ":9090" none).Start none).1.stopTime
          ⟨fun _ => 0, fun _ => 10000000000⟩ ≤
        ((New.WithGRPC (some 1) ":9090" none).Start none).1.timeout) ∧
      (((New.WithGRPC (some 1) ":9090" none).Start none).1.Stop (fun _ => none) [1]).map
          Prod.snd = .ok none ∧
      ((New.WithHTTP [some 1]).Start none).1.stopTime
          ⟨fun _ => 10000000000, fun _ => 0⟩ = 2000000000 := by
  refine ⟨rfl, rfl, ?_, ?_, rfl, ?_⟩ <;> decide

/-! ### The gRPC handler of the calculator -/

/-- C27, at the failing input: a request with the operator ADD and no
`Operands` message. The service reads `operands.Number_1` through the nil
pointer and the handler panics instead of returning a response or an error; a
request with an operator outside the four gets the service's error and a nil
response. -/
theorem C27_nil_operands_panics :
    GRPCHandler.Calculator ratFloat64 samplePb ⟨samplePb.OPERATOR_ADD, none⟩ =
        .error "invalid memory address or nil pointer dereference" ∧
      GRPCHandler.Calculator ratFloat64 samplePb ⟨0, none⟩ =
        .ok (none, some (.errorString "error: some arguments are not supplied")) ∧
      GRPCHandler.Calculator ratFloat64 samplePb ⟨samplePb.OPERATOR_ADD, some ⟨1, 2⟩⟩ =
        .ok (some ⟨3⟩, none) := by
  refine ⟨rfl, rfl, ?_⟩
  simp [GRPCHandler.Calculator, Calculator, deref, add, samplePb, ratFloat64, Except.map]
  norm_num

/-! ### Remote address -/

theorem splitChars_ne_nil (sep : Char) (cs : List Char) : splitChars sep cs ≠ [] := by
  induction cs with
  | nil => simp [splitChars]
  | cons c cs ih =>
    unfold splitChars
    split_ifs
    · simp
    · split <;> simp

theorem xffEntries_length_pos (xff : String) : 0 < (xffEntries xff).length := by
  unfold xffEntries stringsSplitComma
  simp only [List.length_map]
  exact List.length_pos.mpr (splitChars_ne_nil _ _)

theorem wrapInt64_of_range (x : Int) (h1 : -(2 ^ 63) ≤ x) (h2 : x < 2 ^ 63) :
    wrapInt64 x = x := by
  unfold wrapInt64
  rw [Int.emod_eq_of_lt (by omega) (by omega)]
  omega

/-- C28, as the code has it: for every request and every offset that is not
negative (a Go `int`, the number of entries of the header below 2^63 as every
Go length is), `GetRemoteIPWithOffset` returns normally and never a nil IP: the
index `max(0, count-1-offset)` is in range and the result is the parsed
X-Forwarded-For entry at that index when the header is not empty and the entry
is a valid IP, otherwise the parsed host part of `RemoteAddr` when `RemoteAddr`
is not empty, splits and its host is a valid IP, otherwise 169.254.0.1. -/
theorem C28_offset_not_negative (n : NetRuntime) (r : Request) (xffOffset : Int)
    (h0 : 0 ≤ xffOffset) (h1 : xffOffset < 2 ^ 63)
    (hlen : ((xffEntries r.XForwardedFor).length : Int) < 2 ^ 63) :
    (∃ ip, GetRemoteIPWithOffset n r xffOffset = .ok (some ip) ∧
      (r.XForwardedFor = "" → ip = remoteAddrOrDefault n r) ∧
      (r.XForwardedFor ≠ "" →
        (max 0 (((xffEntries r.XForwardedFor).length : Int) - 1 - xffOffset)).toNat <
            (xffEntries r.XForwardedFor).length ∧
        ∃ p, (xffEntries r.XForwardedFor).get?
            (max 0 (((xffEntries r.XForwardedFor).length : Int) - 1 - xffOffset)).toNat =
              some p ∧
          ip = (n.parseIP p).getD (remoteAddrOrDefault n r))) ∧
      (∀ host a, r.RemoteAddr ≠ "" → n.splitHostPort r.RemoteAddr = some host →
        n.parseIP host = some a → remoteAddrOrDefault n r = a) ∧
      ((r.RemoteAddr = "" ∨ n.splitHostPort r.RemoteAddr = none ∨
          ∃ host, n.splitHostPort r.RemoteAddr = some host ∧ n.parseIP host = none) →
        remoteAddrOrDefault n r = [0, 0, 0, 0, 0, 0, 0, 0, 0, 0, 255, 255, 169, 254, 0, 1]) := by
  refine ⟨?_, ?_, ?_⟩
  · by_cases hx : r.XForwardedFor = ""
    · exact ⟨remoteAddrOrDefault n r, by simp [GetRemoteIPWithOffset, hx], fun _ => rfl,
        fun h => absurd hx h⟩
    · have hpos := xffEntries_length_pos r.XForwardedFor
      have hw : wrapInt64 (((xffEntries r.XForwardedFor).length : Int) - 1 - xffOffset) =
          ((xffEntries r.XForwardedFor).length : Int) - 1 - xffOffset :=
        wrapInt64_of_range _ (by omega) (by omega)
      have hidx : (if ((xffEntries r.XForwardedFor).length : Int) - 1 - xffOffset < 0
            then (0 : Int)
            else ((xffEntries r.XForwardedFor).length : Int) - 1 - xffOffset).toNat =
          (max 0 (((xffEntries r.XForwardedFor).length : Int) - 1 - xffOffset)).toNat := by
        split_ifs with hneg <;> omega
      have hlt : (max 0 (((xffEntries r.XForwardedFor).length : Int) - 1 - xffOffset)).toNat <
          (xffEntries r.XForwardedFor).length := by omega
      obtain ⟨p, hp⟩ : ∃ p, (xffEntries r.XForwardedFor).get?
          (max 0 (((xffEntries r.XForwardedFor).length : Int) - 1 - xffOffset)).toNat =
            some p :=
        ⟨_, List.get?_eq_get hlt⟩
      refine ⟨(n.parseIP p).getD (remoteAddrOrDefault n r), ?_, fun h => absurd h hx,
        fun _ => ⟨hlt, p, hp, rfl⟩⟩
      simp only [GetRemoteIPWithOffset, hx, ne_eq, not_false_eq_true, if_true, hw, hidx, hp]
      cases n.parseIP p <;> rfl
  · intro host a hne hsplit hparse
    simp [remoteAddrOrDefault, hne, hsplit, hparse]
  · intro h
    rcases h with h | h | ⟨host, hsplit, hparse⟩
    · simp [remoteAddrOrDefault, h, netIPv4]
    · by_cases hne : r.RemoteAddr = "" <;> simp [remoteAddrOrDefault, hne, h, netIPv4]
    · by_cases hne : r.RemoteAddr = "" <;>
        simp [remoteAddrOrDefault, hne, hsplit, hparse, netIPv4]

theorem C28_offset_not_negative_witness :
    (0 : Int) ≤ 1 ∧ (1 : Int) < 2 ^ 63 ∧
      ((xffEntries (Request.mk "9.9.9.9, 1.2.3.4 , 7.7.7.7" "10.0.0.1:80").XForwardedFor).length
        : Int) < 2 ^ 63 ∧
      (∃ ip, GetRemoteIPWithOffset sampleNet ⟨"9.9.9.9, 1.2.3.4 , 7.7.7.7", "10.0.0.1:80"⟩ 1 =
          .ok (some ip) ∧
        ((Request.mk "9.9.9.9, 1.2.3.4 , 7.7.7.7" "10.0.0.1:80").XForwardedFor = "" →
          ip = remoteAddrOrDefault sampleNet ⟨"9.9.9.9, 1.2.3.4 , 7.7.7.7", "10.0.0.1:80"⟩)) ∧
      GetRemoteIP sampleNet ⟨"9.9.9.9, 1.2.3.4 , 7.7.7.7", "10.0.0.1:80"⟩ =
        .ok (some [0, 0, 0, 0, 0, 0, 0, 0, 0, 0, 255, 255, 1, 2, 3, 4]) ∧
      GetRemoteIPWithOffset sampleNet ⟨"9.9.9.9", "10.0.0.1:80"⟩ 5 =
        .ok (some [0, 0, 0, 0, 0, 0, 0, 0, 0, 0, 255, 255, 9, 9, 9, 9]) ∧
      GetRemoteIPWithOffset sampleNet ⟨"unknown", "10.0.0.1:80"⟩ 0 =
        .ok (some [0, 0, 0, 0, 0, 0, 0, 0, 0, 0, 255, 255, 10, 0, 0, 1]) ∧
      GetRemoteIPWithOffset sampleNet ⟨"", ""⟩ 0 =
        .ok (some [0, 0, 0, 0, 0, 0, 0, 0, 0, 0, 255, 255, 169, 254, 0, 1]) :=
  ⟨by decide, by decide, by decide,
    (C28_offset_not_negative sampleNet ⟨"9.9.9.9, 1.2.3.4 , 7.7.7.7", "10.0.0.1:80"⟩ 1
      (by decide) (by decide) (by decide)).1.imp (fun _ h => ⟨h.1, h.2.1⟩),
    rfl, rfl, rfl, rfl⟩

/-- C28 as stated fails for a negative offset. For a request whose
X-Forwarded-For header is `1.2.3.4` and the offset -1 the index is
`count - 1 - offset = 1`; the clamp only raises a negative index to zero, and
the read of entry 1 of a slice of one entry panics, whatever `net.ParseIP` and
`net.SplitHostPort` do. -/
theorem C28_counterexample :
    xffEntries "1.2.3.4" = ["1.2.3.4"] ∧
      ∀ n : NetRuntime,
        GetRemoteIPWithOffset n ⟨"1.2.3.4", "10.0.0.1:80"⟩ (-1) = .error "index out of range" := by
  refine ⟨by decide, fun n => ?_⟩
  have h : xffEntries "1.2.3.4" = ["1.2.3.4"] := by decide
  simp only [GetRemoteIPWithOffset, h]
  rfl

/-! ### The go-kit entry point -/

theorem loglevelFromString_mem (rt : Runtime) (s : String) :
    (loglevelFromString rt s).1 ∈ allLevels := by
  unfold loglevelFromString
  simp only []
  split_ifs <;> simp only [] <;> decide

theorem logScan_total (rt : Runtime) (l : logger) :
    ∀ (kvs : List Value) (lvl : level) (remaining : List Value),
      lvl ∈ allLevels → remaining.length % 2 = 0 →
      ∀ r, l.logScan rt kvs lvl remaining = some r → r.1 ∈ allLevels ∧ r.2.length % 2 = 0
  | [], lvl, remaining, h1, h2, r, hr => by
      simp only [logger.logScan, Option.some.injEq] at hr
      subst hr; exact ⟨h1, h2⟩
  | [_], lvl, remaining, h1, h2, r, hr => by
      simp only [logger.logScan, Option.some.injEq] at hr
      subst hr; exact ⟨h1, h2⟩
  | k :: v :: rest, lvl, remaining, h1, h2, r, hr => by
      have h2' : ∀ a b : Value, (remaining ++ [a, b]).length % 2 = 0 := by
        intro a b; simp only [List.length_append, List.length_cons, List.length_nil]; omega
      cases k with
      | str key =>
        simp only [logger.logScan] at hr
        split_ifs at hr with hkey
        · cases hv : logLevelText v with
          | none =>
            simp only [hv] at hr
            exact logScan_total rt l rest lvl remaining h1 h2 r hr
          | some str =>
            simp only [hv] at hr
            split_ifs at hr with hal
            exact logScan_total rt l rest _ remaining (loglevelFromString_mem rt str) h2 r hr
        · exact logScan_total rt l rest lvl _ h1 (h2' _ _) r hr
      | nil => exact logScan_total rt l rest lvl _ h1 (h2' _ _) r (by simpa [logger.logScan] using hr)
      | error e => exact logScan_total rt l rest lvl _ h1 (h2' _ _) r (by simpa [logger.logScan] using hr)
      | sourceLocation e => exact logScan_total rt l rest lvl _ h1 (h2' _ _) r (by simpa [logger.logScan] using hr)
      | stacktrace e => exact logScan_total rt l rest lvl _ h1 (h2' _ _) r (by simpa [logger.logScan] using hr)
      | levelValue e => exact logScan_total rt l rest lvl _ h1 (h2' _ _) r (by simpa [logger.logScan] using hr)
      | other e => exact logScan_total rt l rest lvl _ h1 (h2' _ _) r (by simpa [logger.logScan] using hr)

theorem logScan_noLevelKey (rt : Runtime) (l : logger) :
    ∀ (kvs : List Value) (lvl : level) (remaining : List Value), noLevelKey rt kvs = true →
      l.logScan rt kvs lvl remaining = some (lvl, remaining ++ renamedPairs rt kvs)
  | [], lvl, remaining, _ => by simp [logger.logScan, renamedPairs]
  | [_], lvl, remaining, _ => by simp [logger.logScan, renamedPairs]
  | k :: v :: rest, lvl, remaining, h => by
      simp only [noLevelKey, Bool.and_eq_true, Bool.not_eq_true'] at h
      obtain ⟨hk, hrest⟩ := h
      cases k with
      | str key =>
        simp only [isLevelKey, decide_eq_false_iff_not] at hk
        simp only [logger.logScan, hk, if_false, renamedPairs]
        rw [logScan_noLevelKey rt l rest lvl _ hrest]
        simp
      | nil => simp [logger.logScan, renamedPairs, logScan_noLevelKey rt l rest lvl _ hrest]
      | error e => simp [logger.logScan, renamedPairs, logScan_noLevelKey rt l rest lvl _ hrest]
      | sourceLocation e =>
        simp [logger.logScan, renamedPairs, logScan_noLevelKey rt l rest lvl _ hrest]
      | stacktrace e =>
        simp [logger.logScan, renamedPairs, logScan_noLevelKey rt l rest lvl _ hrest]
      | levelValue e =>
        simp [logger.logScan, renamedPairs, logScan_noLevelKey rt l rest lvl _ hrest]
      | other e => simp [logger.logScan, renamedPairs, logScan_noLevelKey rt l rest lvl _ hrest]

theorem logScan_append (rt : Runtime) (l : logger) (post : List Value) :
    ∀ (pre : List Value) (lvl : level) (remaining : List Value), pre.length % 2 = 0 →
      noLevelKey rt pre = true →
      l.logScan rt (pre ++ post) lvl remaining =
        l.logScan rt post lvl (remaining ++ renamedPairs rt pre)
  | [], lvl, remaining, _, _ => by simp [renamedPairs]
  | [_], lvl, remaining, h, _ => by simp at h
  | k :: v :: rest, lvl, remaining, hlen, h => by
      simp only [noLevelKey, Bool.and_eq_true, Bool.not_eq_true'] at h
      obtain ⟨hk, hrest⟩ := h
      have hlen' : rest.length % 2 = 0 := by
        simp only [List.length_cons] at hlen; omega
      cases k with
      | str key =>
        simp only [isLevelKey, decide_eq_false_iff_not] at hk
        simp only [List.cons_append, logger.logScan, hk, if_false, renamedPairs]
        have ih := logScan_append rt l post rest lvl
          (remaining ++ [.str (logKey (stringsToLower rt key)), v]) hlen' hrest
        simpa using ih
      | nil =>
        simp [logger.logScan, renamedPairs, logScan_append rt l post rest lvl _ hlen' hrest]
      | error e =>
        simp [logger.logScan, renamedPairs, logScan_append rt l post rest lvl _ hlen' hrest]
      | sourceLocation e =>
        simp [logger.logScan, renamedPairs, logScan_append rt l post rest lvl _ hlen' hrest]
      | stacktrace e =>
        simp [logger.logScan, renamedPairs, logScan_append rt l post rest lvl _ hlen' hrest]
      | levelValue e =>
        simp [logger.logScan, renamedPairs, logScan_append rt l post rest lvl _ hlen' hrest]
      | other e =>
        simp [logger.logScan, renamedPairs, logScan_append rt l post rest lvl _ hlen' hrest]

theorem renamedPairs_even (rt : Runtime) :
    ∀ kvs : List Value, (renamedPairs rt kvs).length % 2 = 0
  | [] => by simp [renamedPairs]
  | [_] => by simp [renamedPairs]
  | k :: v :: rest => by
      have := renamedPairs_even rt rest
      simp only [renamedPairs, List.length_cons]; omega

theorem Log_total (rt : Runtime) (l : logger) (keyvals : List Value) (w : World) :
    ∃ w', l.Log rt keyvals w = .ok (w', none) := by
  unfold logger.Log
  cases hs : l.logScan rt keyvals levelDebug [] with
  | none => exact ⟨w, rfl⟩
  | some r =>
    obtain ⟨lvl, remaining⟩ := r
    obtain ⟨h1, h2⟩ := logScan_total rt l keyvals levelDebug [] (by decide) (by simp) _ hs
    obtain ⟨w', hw, _⟩ := logWithFallback_spec rt l lvl 1 remaining w h1 h2
    exact ⟨w', by simp only [hw]⟩

/-- C26: `Log` filters by the level of the record. For a key/value list
`pre ++ [K, s] ++ post` whose only level key is the string K (`level` or
`severity` in lower case) with the string value s, and for L the level
`loglevelFromString` makes of s: `Log` returns nil; when L is not allowed it
changes nothing; when L is allowed it writes one record, the one
`logWithFallback` writes at level L for the other pairs in their order, the
string keys in lower case with `msg` renamed to `message` and `ts` to `time`.
A list without level key is logged at Debug, so a logger at the default level
writes nothing for it. `Log` returns nil for every list. -/
theorem C26_Log_filters_by_record_level (rt : Runtime) (l : logger) (pre post : List Value)
    (K s : String) (w : World) (hpre : pre.length % 2 = 0)
    (hK : stringsToLower rt K = "level" ∨ stringsToLower rt K = "severity")
    (hnpre : noLevelKey rt pre = true) (hnpost : noLevelKey rt post = true) :
    (∃ w', l.Log rt (pre ++ .str K :: .str s :: post) w = .ok (w', none) ∧
      (l.isAllowed (loglevelFromString rt s).1 = false → w' = w) ∧
      (l.isAllowed (loglevelFromString rt s).1 = true →
        l.logWithFallback rt (loglevelFromString rt s).1 1
            (renamedPairs rt pre ++ renamedPairs rt post) w = .ok w' ∧
        ∃ lg ps has, l.levelLogger (loglevelFromString rt s).1 = .ok lg ∧
          scanParams rt l.logPrefix (renamedPairs rt pre ++ renamedPairs rt post) =
            .ok (ps, has) ∧
          w'.written = w.written ++
            [(l.gklogger.sink, gkRecord lg (appendSourceLocation rt 1 has ps))])) ∧
      (∀ kvs, noLevelKey rt kvs = true →
        ∃ w', l.Log rt kvs w = .ok (w', none) ∧
          l.logWithFallback rt levelDebug 1 (renamedPairs rt kvs) w = .ok w' ∧
          (l.loglevel = levelDefault → w' = w)) ∧
      (∀ kvs, ∃ w', l.Log rt kvs w = .ok (w', none)) ∧
      (∀ k v rest, stringsToLower rt k = "msg" →
        renamedPairs rt (.str k :: v :: rest) = .str "message" :: v :: renamedPairs rt rest) ∧
      (∀ k v rest, stringsToLower rt k = "ts" →
        renamedPairs rt (.str k :: v :: rest) = .str "time" :: v :: renamedPairs rt rest) := by
  refine ⟨?_, ?_, fun kvs => Log_total rt l kvs w, ?_, ?_⟩
  · have hscan : l.logScan rt (pre ++ .str K :: .str s :: post) levelDebug [] =
        if !l.isAllowed (loglevelFromString rt s).1 then none
        else some ((loglevelFromString rt s).1, renamedPairs rt pre ++ renamedPairs rt post) := by
      rw [logScan_append rt l _ pre levelDebug [] hpre hnpre]
      simp only [logger.logScan, hK, if_true, logLevelText, List.nil_append]
      split_ifs
      · rfl
      · exact logScan_noLevelKey rt l post _ _ hnpost
    have heven : (renamedPairs rt pre ++ renamedPairs rt post).length % 2 = 0 := by
      have h1 := renamedPairs_even rt pre
      have h2 := renamedPairs_even rt post
      simp only [List.length_append]; omega
    have hmem := loglevelFromString_mem rt s
    cases hal : l.isAllowed (loglevelFromString rt s).1 with
    | false =>
      refine ⟨w, ?_, fun _ => rfl, fun h => by simp at h⟩
      simp [logger.Log, hscan, hal]
    | true =>
      obtain ⟨ps, has, hsp, _⟩ := scanParams_ok rt l.logPrefix _ heven
      obtain ⟨lg, w', hlg, hw, hwr, _, _⟩ :=
        logWithFallback_written rt l _ 1 _ ps has w hmem hal heven hsp
      refine ⟨w', ?_, fun h => by simp at h, fun _ => ⟨hw, lg, ps, has, hlg, hsp, hwr⟩⟩
      simp [logger.Log, hscan, hal, hw]
  · intro kvs hn
    have hscan := logScan_noLevelKey rt l kvs levelDebug [] hn
    simp only [List.nil_append] at hscan
    obtain ⟨w', hw, _, _, hno, _⟩ :=
      logWithFallback_spec rt l levelDebug 1 (renamedPairs rt kvs) w (by decide)
        (renamedPairs_even rt kvs)
    refine ⟨w', by simp [logger.Log, hscan, hw], hw, fun hl => hno ?_⟩
    unfold logger.isAllowed
    rw [hl]
    decide
  · intro k v rest hk
    simp [renamedPairs, hk, logKey]
  · intro k v rest hk
    simp [renamedPairs, hk, logKey]

theorem C26_Log_filters_by_record_level_witness :
    [Value.str "msg", Value.str "hello"].length % 2 = 0 ∧
      (stringsToLower sampleRt "Level" = "level" ∨
        stringsToLower sampleRt "Level" = "severity") ∧
      noLevelKey sampleRt [.str "msg", .str "hello"] = true ∧
      noLevelKey sampleRt [.str "ts", .str "now"] = true ∧
      (createLogger ⟨0, []⟩).Log sampleRt
          [.str "msg", .str "hello", .str "Level", .str "ERROR", .str "ts", .str "now"]
          World.empty =
        .ok ({ World.empty with written :=
          [(0, [.str "severity", .str "error", .str "message", .str "hello",
                .str "time", .str "now"])] }, none) ∧
      (createLogger ⟨0, []⟩).Log sampleRt
          [.str "msg", .str "hello", .str "Level", .str "debug", .str "ts", .str "now"]
          World.empty = .ok (World.empty, none) ∧
      (∃ w', (createLogger ⟨0, []⟩).Log sampleRt
          ([.str "msg", .str "hello"] ++ .str "Level" :: .str "ERROR" ::
            [.str "ts", .str "now"]) World.empty = .ok (w', none) ∧
        ((createLogger ⟨0, []⟩).isAllowed (loglevelFromString sampleRt "ERROR").1 = false →
          w' = World.empty)) :=
  ⟨by decide, Or.inl (by decide), by decide, by decide, rfl, rfl,
    (C26_Log_filters_by_record_level sampleRt (createLogger ⟨0, []⟩)
      [.str "msg", .str "hello"] [.str "ts", .str "now"] "Level" "ERROR" World.empty
      (by decide) (Or.inl (by decide)) (by decide) (by decide)).1.imp
      (fun _ h => ⟨h.1, h.2.1⟩)⟩

/-! ### Values in the template formatter -/

theorem replaceDollarDot_append (p : List Char) :
    ∀ (a b : List Char), (a.getLast? ≠ some '$' ∨ b.head? ≠ some '.') →
      replaceDollarDot p (a ++ b) = replaceDollarDot p a ++ replaceDollarDot p b
  | [], b, _ => by simp [replaceDollarDot]
  | [c], [], _ => by simp [replaceDollarDot]
  | [c], d :: rest, h => by
      have hne : ¬ (c = '$' ∧ d = '.') := by
        rintro ⟨rfl, rfl⟩
        simp at h
      simp [replaceDollarDot, hne]
  | c :: d :: rest, b, h => by
      have h1 : (d :: rest).getLast? ≠ some '$' ∨ b.head? ≠ some '.' := by
        simpa [List.getLast?_cons_cons] using h
      have h2 : rest.getLast? ≠ some '$' ∨ b.head? ≠ some '.' := by
        cases rest with
        | nil => simp
        | cons e rest => simpa [List.getLast?_cons_cons] using h1
      have ih1 := replaceDollarDot_append p (d :: rest) b h1
      have ih2 := replaceDollarDot_append p rest b h2
      simp only [List.cons_append] at ih1 ⊢
      simp only [replaceDollarDot]
      split_ifs
      · rw [ih2, List.append_assoc]
      · rw [ih1, List.cons_append]

theorem replaceDollarDot_of_hasDollarDot (p : List Char) :
    ∀ v : List Char, hasDollarDot v = false → replaceDollarDot p v = v
  | [], _ => rfl
  | [_], _ => rfl
  | c :: d :: rest, h => by
      simp only [hasDollarDot, Bool.or_eq_false_iff, Bool.and_eq_false_iff,
        decide_eq_false_iff_not] at h
      have hne : ¬ (c = '$' ∧ d = '.') := by
        rintro ⟨h1, h2⟩
        rcases h.1 with h3 | h3
        · exact h3 h1
        · exact h3 h2
      simp only [replaceDollarDot, hne, if_false]
      rw [replaceDollarDot_of_hasDollarDot p (d :: rest) h.2]

theorem replaceDollarDot_value (p a v b : List Char) (hne : v ≠ [])
    (hdd : hasDollarDot v = false) (hhead : v.head? ≠ some '.')
    (hlast : v.getLast? ≠ some '$') :
    replaceDollarDot p (a ++ v ++ b) = replaceDollarDot p a ++ v ++ replaceDollarDot p b := by
  rw [replaceDollarDot_append p (a ++ v) b
      (Or.inl (by rw [List.getLast?_append_of_ne_nil _ hne]; exact hlast)),
    replaceDollarDot_append p a v (Or.inr hhead), replaceDollarDot_of_hasDollarDot p v hdd]

theorem stackBlock_ok (rt : Runtime) (frt : FormatRuntime) (l : customFormatLogger)
    (keyvals : List Value) (hst : Value.stacktrace none ∉ keyvals) :
    ∃ block, l.stackBlock frt
      (formatScan rt keyvals { kv := [], params := [], lvl := 0, st := none }).st =
        .ok block := by
  unfold customFormatLogger.stackBlock
  cases hs : (formatScan rt keyvals { kv := [], params := [], lvl := 0, st := none }).st with
  | none => exact ⟨_, rfl⟩
  | some t =>
    cases t with
    | none =>
      rcases formatScan_st rt keyvals _ hs with h | h
      · cases h
      · exact absurd h hst
    | some e =>
      simp only
      split_ifs <;> exact ⟨_, rfl⟩

theorem substitute_split (rt : Runtime) (frt : FormatRuntime) (l : customFormatLogger)
    (keyvals : List Value) (ts1 ts2 : List fmtToken) (name : String)
    (hcol : l.useColors = false)
    (htok : templateTokens l.fmtstring = ts1 ++ .placeholder name :: ts2) :
    (l.substitute rt frt keyvals).data =
      (l.substituteTokens rt frt keyvals ts1).data ++
        (mapGet (formatTable rt keyvals) (stringsToLower rt name)).data ++
        (l.substituteTokens rt frt keyvals ts2).data := by
  simp [customFormatLogger.substitute, customFormatLogger.substituteTokens, htok,
    placeholderText, hcol, String.join_eq, String.data_append]

/-- A value that is not empty, holds no "$.", does not begin with "." and does
not end with "$" is in the line as it is: with colours off, the line is the
text of the template before the placeholder, the value, and the text of the
template after the placeholder, each of the two template texts after the
replacement of "$.". The record holds no `stacktrace` value with a nil
stack. -/
theorem formatter_value_verbatim (rt : Runtime) (frt : FormatRuntime)
    (l : customFormatLogger) (keyvals : List Value) (writeErr : Option GoError)
    (ts1 ts2 : List fmtToken) (name v : String)
    (hcol : l.useColors = false)
    (htok : templateTokens l.fmtstring = ts1 ++ .placeholder name :: ts2)
    (hst : Value.stacktrace none ∉ keyvals)
    (hv : mapGet (formatTable rt keyvals) (stringsToLower rt name) = v)
    (hne : v ≠ "") (hdd : hasDollarDot v.data = false) (hhead : v.data.head? ≠ some '.')
    (hlast : v.data.getLast? ≠ some '$') :
    ∃ block, l.Log rt frt keyvals writeErr =
      .ok (String.mk (replaceDollarDot (l.dotText rt frt keyvals).data
            (l.substituteTokens rt frt keyvals ts1).data) ++ v ++
          String.mk (replaceDollarDot (l.dotText rt frt keyvals).data
            (l.substituteTokens rt frt keyvals ts2).data) ++ "\n" ++ block,
        writeErr.map (fun err => .withStack err rt.errorsCallers)) := by
  obtain ⟨block, hb⟩ := stackBlock_ok rt frt l keyvals hst
  have hsplit := substitute_split rt frt l keyvals ts1 ts2 name hcol htok
  refine ⟨block, ?_⟩
  have hne' : v.data ≠ [] := by
    intro h
    apply hne
    apply String.ext
    simpa using h
  unfold customFormatLogger.Log customFormatLogger.render
  simp only [hb, hsplit, hv, replaceDollarDot_value _ _ _ _ hne' hdd hhead hlast]
  congr 2

/-- C25, at the failing input: the template "$message" with colours off and
the record message="price is $.99", k=v. The value put in place of `$message`
is "price is $.99"; the replacement of "$." then runs over the whole line, and
the line written is "price is ($k=v)99": the value is not in the line. Without
the pair k=v the line is "price is 99". A `$k` inside a value stays as it is,
since the pass over the `$key` placeholders reads the template only. -/
theorem C25_dollar_dot_in_value_expanded :
    mapGet (formatTable sampleRt [.str "message", .str "price is $.99", .str "k", .str "v"])
        (stringsToLower sampleRt "$message") = "price is $.99" ∧
      customFormatLogger.Log sampleRt sampleFrt ⟨"$message", false⟩
          [.str "message", .str "price is $.99", .str "k", .str "v"] none =
        .ok ("price is ($k=v)99\n", none) ∧
      stringsContains "price is ($k=v)99\n" "price is $.99" = false ∧
      customFormatLogger.Log sampleRt sampleFrt ⟨"$message", false⟩
          [.str "message", .str "price is $.99"] none =
        .ok ("price is 99\n", none) ∧
      customFormatLogger.Log sampleRt sampleFrt ⟨"$message", false⟩
          [.str "message", .str "pay $k", .str "k", .str "v"] none =
        .ok ("pay $k\n", none) := by
  refine ⟨by decide, rfl, by decide, rfl, rfl⟩

end CalculatorService
